import Mathlib

/-!
# Bioscope: a frame grabber on top of a multimedia decoding library

Shallow embedding of `Bioscope.cpp`.  The wrapper only sequences calls into
external libraries, so the embedding has two layers:

* the external calls (container, decoder, scaler, rational arithmetic, path
  canonicalisation) are fields of a `Library` record: the theorems about the
  wrapper hold for whatever those calls answer, except where a statement fixes
  the rational arithmetic to that of the decoding library;
* the wrapper itself (`Detail`, `AVCheck`, the constructor `Bioscope`,
  `supportedFile`, `duration`, `width`, `height`, `frame`, `seek`) is translated
  statement by statement, with pointers as `Option`, C integers as `Int` with an
  explicit wrap at each narrowing conversion, and exceptions as a `Result`.

Two ghost logs are added to the operations: the integer codes the library calls
returned, and the handles that were acquired and released.
-/

set_option linter.dupNamespace false

namespace Bioscope

/-! ## Machine integers -/

/-- Lowest value of the C type `int`. -/
def INT_MIN : Int := -2147483648

/-- Lowest value of a 64-bit signed integer (`qint64`). -/
def INT64_MIN : Int := -9223372036854775808

/-- Conversion to the C type `int` (32-bit two's complement), as performed by
`(int)ms`, `(int)i` and by storing an `int64_t` in an `int` field. -/
def toInt (x : Int) : Int := (x + 2147483648) % 4294967296 - 2147483648

/-- C integer division `a / b` on a signed type whose lowest value is `lo`:
truncation toward zero; no result for a zero divisor or for `lo / -1`. -/
def cdiv (lo a b : Int) : Option Int :=
  if b = 0 ∨ (a = lo ∧ b = -1) then none else some (Int.tdiv a b)

/-! ## Data owned by the external library -/

/-- A rational number `num / den` with `int` fields. -/
structure AVRational where
  num : Int
  den : Int
  deriving DecidableEq, Repr, Inhabited

/-- Media type of a stream. -/
inductive AVMediaType
  | AVMEDIA_TYPE_UNKNOWN
  | AVMEDIA_TYPE_VIDEO
  | AVMEDIA_TYPE_AUDIO
  | AVMEDIA_TYPE_DATA
  | AVMEDIA_TYPE_SUBTITLE
  | AVMEDIA_TYPE_ATTACHMENT
  deriving DecidableEq, Repr, Inhabited

/-- The fields of a codec context the wrapper reads or writes; `priv_data`
stands for the decoder's internal state. -/
structure AVCodecContext where
  codec_type : AVMediaType
  codec_id : Int
  width : Int
  height : Int
  time_base : AVRational
  pix_fmt : Int
  priv_data : Nat
  deriving DecidableEq, Repr, Inhabited

/-- A stream of a container. -/
structure AVStream where
  codec : AVCodecContext
  time_base : AVRational
  duration : Int
  deriving DecidableEq, Repr, Inhabited

/-- A demuxed packet. -/
structure AVPacket where
  stream_index : Int
  data : Nat
  deriving DecidableEq, Repr, Inhabited

/-- An opened container.  `streams` has `nb_streams` entries; `pending` lists, in
order, what the next calls of `av_read_frame` answer (return code and packet). -/
structure AVFormatContext where
  streams : List AVStream
  max_analyze_duration : Int
  pending : List (Int × AVPacket)
  deriving DecidableEq, Repr, Inhabited

/-- A decoder descriptor. -/
structure AVCodec where
  id : Int
  deriving DecidableEq, Repr, Inhabited

/-- A picture buffer; `picture` identifies its content. -/
structure AVFrame where
  picture : Nat
  deriving DecidableEq, Repr, Inhabited

/-- A scaler context, with the geometry it was created for. -/
structure SwsContext where
  srcW : Int
  srcH : Int
  srcFormat : Int
  dstW : Int
  dstH : Int
  dstFormat : Int
  flags : Int
  deriving DecidableEq, Repr, Inhabited

/-- What `avcodec_decode_video2` leaves behind: its return code, the value it
stores in `done`, the codec context and the picture after the call. -/
structure Decoded where
  ret : Int
  got_picture : Int
  ctx : AVCodecContext
  frame : Option AVFrame
  deriving DecidableEq, Repr, Inhabited

/-- Pixel format constant `PIX_FMT_RGB24`. -/
def PIX_FMT_RGB24 : Int := 2

/-- Scaler flag `SWS_BICUBIC`. -/
def SWS_BICUBIC : Int := 4

/-- Code answered by `av_read_frame` once nothing is left to read. -/
def AVERROR_EOF : Int := -32

/-- The external calls of the wrapper.  Calls that modify an object through a
pointer return the object after the call. -/
structure Library where
  canonicalFilePath : String → String
  av_open_input_file : String → Int × Option AVFormatContext
  av_find_stream_info : AVFormatContext → Int × AVFormatContext
  avcodec_find_decoder : Int → Option AVCodec
  avcodec_open : AVCodecContext → AVCodec → Int × AVCodecContext
  av_mul_q : AVRational → AVRational → AVRational
  av_div_q : AVRational → AVRational → AVRational
  avcodec_alloc_frame : Nat → Option AVFrame
  avpicture_get_size : Int → Int → Int → Int
  sws_getContext : Int → Int → Int → Int → Int → Int → Int → Option SwsContext
  av_strerror : Int → Option String
  avcodec_decode_video2 : AVCodecContext → Option AVFrame → AVPacket → Decoded
  sws_scale : Option SwsContext → Option AVFrame → Int → List Nat → List Nat
  av_seek_frame : AVFormatContext → Int → Int → Int → Int × AVFormatContext

/-! ## Strings: `QString::arg` -/

/-- A piece of a format string: a plain character, or a place marker `%n` /
`%Ln` together with the characters that spell it. -/
inductive Piece
  | text (c : Char)
  | escape (n : Nat) (raw : List Char)
  deriving DecidableEq, Repr

/-- One or two decimal digits at the head of the input: their value and
spelling. -/
def digitsAt : List Char → Option (Nat × List Char)
  | [] => none
  | [d] => if d.isDigit then some (d.toNat - 48, [d]) else none
  | d :: e :: _ =>
    if d.isDigit then
      if e.isDigit then some (10 * (d.toNat - 48) + (e.toNat - 48), [d, e])
      else some (d.toNat - 48, [d])
    else none

/-- The place marker that follows a `%`, if there is one: an optional `L`, then
one or two digits. -/
def escapeAt : List Char → Option (Nat × List Char)
  | [] => none
  | c :: rest =>
    if c = 'L' then (digitsAt rest).map (fun r => (r.1, c :: r.2))
    else digitsAt (c :: rest)

/-- Splits a format string into pieces; `skip` characters of the input belong to
the marker just recognised. -/
def findArgEscapes : Nat → List Char → List Piece
  | _, [] => []
  | k + 1, _ :: rest => findArgEscapes k rest
  | 0, c :: rest =>
    if c = '%' then
      match escapeAt rest with
      | some r => Piece.escape r.1 (c :: r.2) :: findArgEscapes r.2.length rest
      | none => Piece.text c :: findArgEscapes 0 rest
    else Piece.text c :: findArgEscapes 0 rest

/-- The lowest marker number among the pieces. -/
def lowestEscape : List Piece → Option Nat
  | [] => none
  | Piece.text _ :: rest => lowestEscape rest
  | Piece.escape n _ :: rest =>
    match lowestEscape rest with
    | none => some n
    | some m => some (min n m)

/-- Writes the pieces back, with `a` in place of every marker numbered `m`. -/
def replaceArgEscapes (m : Nat) (a : List Char) : List Piece → List Char
  | [] => []
  | Piece.text c :: rest => c :: replaceArgEscapes m a rest
  | Piece.escape n raw :: rest =>
    (if n = m then a else raw) ++ replaceArgEscapes m a rest

/-- The call `s.arg(a)` of `QString`: every occurrence of the lowest-numbered
place marker of `s` is replaced by `a`; a string without marker is returned
unchanged. -/
def arg (s a : String) : String :=
  match lowestEscape (findArgEscapes 0 s.data) with
  | none => s
  | some m => String.mk (replaceArgEscapes m a.data (findArgEscapes 0 s.data))

/-! ## Errors and results -/

/-- Modelled from the spec: the exception classes of `Bioscope.hpp` (the header
is not among the sources).  `AVError` carries the message handed to its base
class `Error`; `UnsupportedFile` carries the path it was built from. -/
inductive Error
  | AVError (message : String)
  | UnsupportedFile (path : String)
  deriving DecidableEq, Repr

/-- How a call of the wrapper ends: it returns, it raises, or the process stops
(failed `Q_ASSERT`, null or out-of-range access, integer division fault). -/
inductive Result (α : Type)
  | ok (a : α)
  | raised (e : Error)
  | aborted
  deriving DecidableEq, Repr

/-- The images the wrapper builds: `QImage()` is the null image,
`QImage(data, width, height, QImage::Format_RGB888)` wraps the RGB buffer with
the given dimensions.  The toolkit's own validation of the dimensions is not
modelled: an image built from data is taken to be non-null. -/
inductive QImage
  | null
  | fromData (data : List Nat) (width height : Int)
  deriving DecidableEq, Repr

/-- Width of an image; 0 for the null image. -/
def QImage.width : QImage → Int
  | .null => 0
  | .fromData _ w _ => w

/-- Height of an image; 0 for the null image. -/
def QImage.height : QImage → Int
  | .null => 0
  | .fromData _ _ h => h

/-- The handles the wrapper owns. -/
inductive Handle
  | container
  | decoder
  | frame
  | frameRGB
  | convertContext
  deriving DecidableEq, Repr

/-- The library calls whose return value is an error code. -/
inductive LibCall
  | av_open_input_file
  | av_find_stream_info
  | avcodec_open
  | av_read_frame
  | avcodec_decode_video2
  | av_seek_frame
  deriving DecidableEq, Repr

/-! ## `Bioscope::Detail` -/

/-- The private state of a `Bioscope` object. -/
structure Detail where
  formatContext : Option AVFormatContext
  codecContext : Option AVCodecContext
  codec : Option AVCodec
  vStreamIndex : Int
  frame : Option AVFrame
  frameRGB : Option AVFrame
  frameBytes : List Nat
  convertContext : Option SwsContext
  duration : Int
  width : Int
  height : Int
  deriving DecidableEq, Repr

/-- The constructor `Detail()`: every pointer null, no stream selected. -/
def Detail.init : Detail :=
  { formatContext := none, codecContext := none, codec := none,
    vStreamIndex := -1,
    frame := none, frameRGB := none, frameBytes := [], convertContext := none,
    duration := 0, width := 0, height := 0 }

/-- The destructor `~Detail()`: the handles it releases, in the order of the
release calls (`sws_freeContext`, `av_free`, `av_free`, `avcodec_close`,
`av_close_input_file`), each guarded by its pointer being non-null. -/
def Detail.destroy (d : Detail) : List Handle :=
  (if d.convertContext.isSome then [Handle.convertContext] else []) ++
  (if d.frameRGB.isSome then [Handle.frameRGB] else []) ++
  (if d.frame.isSome then [Handle.frame] else []) ++
  (if d.codecContext.isSome then [Handle.decoder] else []) ++
  (if d.formatContext.isSome then [Handle.container] else [])

/-- `Detail::fferror`: the library's description of a code, or a fixed text
when `av_strerror` has none. -/
def Detail.fferror (lib : Library) (av_err : Int) : String :=
  match lib.av_strerror av_err with
  | some buff => buff
  | none => "Unknown ffmpeg error"

/-- The constructor of `Bioscope::AVError`. -/
def AVError (lib : Library) (path : String) (av_err : Int) : Error :=
  Error.AVError (arg (arg "FFMpeg error at %1: '%2'" path) (Detail.fferror lib av_err))

/-- `AVCheck::operator<<`: raises `AVError` for a non-zero code. -/
def AVCheck (lib : Library) (m_path : String) (av_err : Int) : Except Error Unit :=
  if av_err ≠ 0 then Except.error (AVError lib m_path av_err) else Except.ok ()

/-! ## The constructor -/

/-- The search loop of the constructor: `i` is the loop counter, the third
argument the current `vStreamIndex`; the first video stream stores `(int)i`
and leaves the loop. -/
def locateLoop : List AVStream → Nat → Int → Int
  | [], _, vStreamIndex => vStreamIndex
  | s :: rest, i, vStreamIndex =>
    if s.codec.codec_type = AVMediaType.AVMEDIA_TYPE_VIDEO then toInt i
    else locateLoop rest (i + 1) vStreamIndex

/-- Locating the video stream: the loop, then `UnsupportedFile` when the index
is still negative.  Returns the index stored in `vStreamIndex` as well. -/
def locateVideoStream (path : String) (streams : List AVStream) (vStreamIndex : Int) :
    Int × Except Error Unit :=
  let v := locateLoop streams 0 vStreamIndex
  (v, if v < 0 then Except.error (Error.UnsupportedFile path) else Except.ok ())

/-- The access `formatContext->streams[i]` for a signed index. -/
def streamAt (fc : AVFormatContext) (i : Int) : Option AVStream :=
  if 0 ≤ i then fc.streams[i.toNat]? else none

/-- The correction of implausible codec time bases made by the constructor. -/
def fixTimeBase (ctx : AVCodecContext) : AVCodecContext :=
  if ctx.time_base.num > 1000 ∧ ctx.time_base.den = 1 then
    { ctx with time_base := { ctx.time_base with den := 1000 } }
  else ctx

/-- The rational the constructor divides to get the duration:
`av_mul_q({duration, 1}, time_base)`; the 64-bit duration is narrowed to the
`int` numerator. -/
def durationSeconds (lib : Library) (s : AVStream) : AVRational :=
  lib.av_mul_q { num := toInt s.duration, den := 1 } s.time_base

/-- The cached duration: `1000 * (qint64)seconds.num / (qint64)seconds.den`. -/
def durationMillis (lib : Library) (s : AVStream) : Option Int :=
  cdiv INT64_MIN (1000 * (durationSeconds lib s).num) (durationSeconds lib s).den

/-- What constructing a `Bioscope` leaves behind: the `Detail` state, how the
constructor ended, the error codes it was given and the handles it acquired, both
in call order. -/
structure Construction where
  detail : Detail
  outcome : Result Unit
  calls : List (LibCall × Int)
  acquired : List Handle
  deriving DecidableEq, Repr

/-- The last part of the constructor, once the decoder is open: cached
dimensions, time-base correction, duration, frames, RGB buffer and scaler.
`d` is the state so far, `s` the selected stream, `opened` the codec context
as `avcodec_open` left it.  `avpicture_fill` only points `frameRGB` at the
buffer and has no counterpart here. -/
def prepare (lib : Library) (d : Detail) (s : AVStream) (opened : AVCodecContext)
    (calls : List (LibCall × Int)) (acquired : List Handle) : Construction :=
  let ctx := fixTimeBase opened
  let d1 := { d with width := opened.width, height := opened.height,
                     codecContext := some ctx }
  match durationMillis lib s with
  | none => ⟨d1, Result.aborted, calls, acquired⟩
  | some ms =>
  let frame := lib.avcodec_alloc_frame 0
  let frameRGB := lib.avcodec_alloc_frame 1
  let bufSize := lib.avpicture_get_size PIX_FMT_RGB24 d1.width d1.height
  let convertContext := lib.sws_getContext d1.width d1.height ctx.pix_fmt
    d1.width d1.height PIX_FMT_RGB24 SWS_BICUBIC
  let d2 := { d1 with duration := ms, frame := frame, frameRGB := frameRGB,
                      frameBytes := List.replicate bufSize.toNat 0,
                      convertContext := convertContext }
  ⟨d2, Result.ok (), calls,
    acquired ++ (if frame.isSome then [Handle.frame] else [])
             ++ (if frameRGB.isSome then [Handle.frameRGB] else [])
             ++ (if convertContext.isSome then [Handle.convertContext] else [])⟩

/-- The middle part of the constructor, once the video stream `s` is selected:
the codec context is taken from the stream, the decoder is looked up
(`UnsupportedFile` when there is none) and opened (checked). -/
def openDecoder (lib : Library) (path : String) (d : Detail) (s : AVStream)
    (calls : List (LibCall × Int)) (acquired : List Handle) : Construction :=
  let d1 := { d with codecContext := some s.codec,
                     codec := lib.avcodec_find_decoder s.codec.codec_id }
  match d1.codec with
  | none => ⟨d1, Result.raised (Error.UnsupportedFile path), calls, acquired⟩
  | some codec =>
  let o := lib.avcodec_open s.codec codec
  let calls1 := calls ++ [(LibCall.avcodec_open, o.1)]
  let d2 := { d1 with codecContext := some o.2 }
  match AVCheck lib path o.1 with
  | Except.error e => ⟨d2, Result.raised e, calls1, acquired⟩
  | Except.ok _ => prepare lib d2 s o.2 calls1 (acquired ++ [Handle.decoder])

/-- The constructor `Bioscope::Bioscope(path, parent)`: the container is opened
(checked) and probed (unchecked), the video stream located, then `openDecoder`
and `prepare` follow.  The one-time library registration done by `Detail()` does
not touch the object and is left out. -/
def Bioscope (lib : Library) (_path : String) : Construction :=
  let path := lib.canonicalFilePath _path
  let opened := lib.av_open_input_file path
  let calls1 := [(LibCall.av_open_input_file, opened.1)]
  let acq1 := if opened.2.isSome then [Handle.container] else []
  let d1 := { Detail.init with formatContext := opened.2 }
  match AVCheck lib path opened.1 with
  | Except.error e => ⟨d1, Result.raised e, calls1, acq1⟩
  | Except.ok _ =>
  match opened.2 with
  | none => ⟨d1, Result.aborted, calls1, acq1⟩
  | some fc0 =>
  let probed := lib.av_find_stream_info
    { fc0 with max_analyze_duration := fc0.max_analyze_duration * 10 }
  let fc := probed.2
  let calls2 := calls1 ++ [(LibCall.av_find_stream_info, probed.1)]
  let located := locateVideoStream path fc.streams d1.vStreamIndex
  let d2 := { d1 with formatContext := some fc, vStreamIndex := located.1 }
  match located.2 with
  | Except.error e => ⟨d2, Result.raised e, calls2, acq1⟩
  | Except.ok _ =>
  match streamAt fc d2.vStreamIndex with
  | none => ⟨d2, Result.aborted, calls2, acq1⟩
  | some s => openDecoder lib path d2 s calls2 acq1

/-- `Bioscope::supportedFile`: constructs a temporary object and catches every
exception. -/
def supportedFile (lib : Library) (path : String) : Result Bool :=
  match (Bioscope lib path).outcome with
  | Result.ok _ => Result.ok true
  | Result.raised _ => Result.ok false
  | Result.aborted => Result.aborted

/-! ## Accessors -/

/-- `Bioscope::duration`. -/
def duration (d : Detail) : Int := d.duration

/-- `Bioscope::width`. -/
def width (d : Detail) : Int := d.width

/-- `Bioscope::height`. -/
def height (d : Detail) : Int := d.height

/-! ## `frame` -/

/-- State at the exit of the read loop of `frame`. -/
structure Loop where
  image : QImage
  pending : List (Int × AVPacket)
  codecContext : AVCodecContext
  frame : Option AVFrame
  frameBytes : List Nat
  calls : List (LibCall × Int)
  deriving DecidableEq, Repr

/-- The `while (av_read_frame(...) >= 0)` loop of `frame`, run on the answers
`av_read_frame` will give.  `done` is 0 whenever the decoder is called, so
`got_picture` is the value of `done` after the call. -/
def frameLoop (lib : Library) (vStreamIndex : Int) (convertContext : Option SwsContext) :
    List (Int × AVPacket) → AVCodecContext → Option AVFrame → List Nat → Loop
  | [], ctx, fr, bytes =>
    ⟨QImage.null, [], ctx, fr, bytes, [(LibCall.av_read_frame, AVERROR_EOF)]⟩
  | (c, packet) :: rest, ctx, fr, bytes =>
    if c ≥ 0 then
      if packet.stream_index = vStreamIndex then
        let r := lib.avcodec_decode_video2 ctx fr packet
        if r.got_picture ≠ 0 then
          let rgb := lib.sws_scale convertContext r.frame r.ctx.height bytes
          ⟨QImage.fromData rgb r.ctx.width r.ctx.height, rest, r.ctx, r.frame, rgb,
            [(LibCall.av_read_frame, c), (LibCall.avcodec_decode_video2, r.ret)]⟩
        else
          let l := frameLoop lib vStreamIndex convertContext rest r.ctx r.frame bytes
          { l with calls := (LibCall.av_read_frame, c) ::
                            (LibCall.avcodec_decode_video2, r.ret) :: l.calls }
      else
        let l := frameLoop lib vStreamIndex convertContext rest ctx fr bytes
        { l with calls := (LibCall.av_read_frame, c) :: l.calls }
    else
      ⟨QImage.null, rest, ctx, fr, bytes, [(LibCall.av_read_frame, c)]⟩

/-- What a call of `frame` leaves behind. -/
structure FrameResult where
  detail : Detail
  image : Result QImage
  calls : List (LibCall × Int)
  deriving DecidableEq, Repr

/-- `Bioscope::frame`.  The container and the codec context are dereferenced:
the call stops the process when one of them is null. -/
def frame (lib : Library) (d : Detail) : FrameResult :=
  match d.formatContext, d.codecContext with
  | some fc, some ctx =>
    let l := frameLoop lib d.vStreamIndex d.convertContext fc.pending ctx d.frame d.frameBytes
    ⟨{ d with formatContext := some { fc with pending := l.pending },
              codecContext := some l.codecContext,
              frame := l.frame, frameBytes := l.frameBytes },
      Result.ok l.image, l.calls⟩
  | _, _ => ⟨d, Result.aborted, []⟩

/-! ## `seek` -/

/-- The rational `seek` divides: `av_div_q({(int)ms, 1000}, time_base)`. -/
def seekTimestamp (lib : Library) (ms : Int) (time_base : AVRational) : AVRational :=
  lib.av_div_q { num := toInt ms, den := 1000 } time_base

/-- What a call of `seek` leaves behind; `request` holds the stream index, the
timestamp and the flags handed to `av_seek_frame`. -/
structure SeekResult where
  detail : Detail
  outcome : Result Unit
  request : Option (Int × Int × Int)
  calls : List (LibCall × Int)
  deriving DecidableEq, Repr

/-- `Bioscope::seek`. -/
def seek (lib : Library) (d : Detail) (ms : Int) : SeekResult :=
  match d.formatContext with
  | none => ⟨d, Result.aborted, none, []⟩
  | some fc =>
  match streamAt fc d.vStreamIndex with
  | none => ⟨d, Result.aborted, none, []⟩
  | some s =>
  let ts := seekTimestamp lib ms s.time_base
  match cdiv INT_MIN ts.num ts.den with
  | none => ⟨d, Result.aborted, none, []⟩
  | some t =>
  let sought := lib.av_seek_frame fc d.vStreamIndex t 0
  ⟨{ d with formatContext := some sought.2 }, Result.ok (),
    some (d.vStreamIndex, t, 0), [(LibCall.av_seek_frame, sought.1)]⟩

/-! ## A reference library

`Reference.av_reduce`, `av_mul_q` and `av_div_q` follow the rational helpers of
the decoding library (continued-fraction reduction bounded by `INT_MAX`);
`sampleLibrary` answers for one small clip.  They instantiate `Library` in the
examples, and `withReferenceRationals` puts the reference arithmetic in any
`Library`. -/

namespace Reference

/-- The largest partial quotient, not above `x`, that keeps the next convergent
within `max`. -/
def clampQuotient (max x : Nat) (a0 a1 : Nat × Nat) : Nat :=
  let x1 := if a1.1 ≠ 0 then (max - a0.1) / a1.1 else x
  if a1.2 ≠ 0 then min x1 ((max - a0.2) / a1.2) else x1

/-- The approximation loop of `av_reduce`: `a0` and `a1` are the last two
convergents (numerator, denominator) of `num / den`. -/
def reduceLoop (max : Nat) (den num : Nat) (a0 a1 : Nat × Nat) : Nat × Nat :=
  if den = 0 then a1
  else if num / den * a1.1 + a0.1 > max ∨ num / den * a1.2 + a0.2 > max then
    if den * (2 * clampQuotient max (num / den) a0 a1 * a1.2 + a0.2) > num * a1.2 then
      (clampQuotient max (num / den) a0 a1 * a1.1 + a0.1,
       clampQuotient max (num / den) a0 a1 * a1.2 + a0.2)
    else a1
  else reduceLoop max (num % den) den a1 (num / den * a1.1 + a0.1, num / den * a1.2 + a0.2)
termination_by den
decreasing_by exact Nat.mod_lt _ (Nat.pos_of_ne_zero (by assumption))

/-- Reduction of the fraction `num / den` to terms not above `max`: exact when
the lowest terms fit, the nearest convergent otherwise.  The sign goes to the
numerator. -/
def av_reduce (num den : Int) (max : Nat) : AVRational :=
  let sign : Bool := (decide (num < 0)) != (decide (den < 0))
  let gcd := Nat.gcd num.natAbs den.natAbs
  let n := if gcd ≠ 0 then num.natAbs / gcd else num.natAbs
  let d := if gcd ≠ 0 then den.natAbs / gcd else den.natAbs
  let a1 := if n ≤ max ∧ d ≤ max then (n, d) else reduceLoop max d n (0, 1) (1, 0)
  { num := if sign then -(a1.1 : Int) else (a1.1 : Int), den := (a1.2 : Int) }

/-- Product of two rationals. -/
def av_mul_q (b c : AVRational) : AVRational :=
  av_reduce (b.num * c.num) (b.den * c.den) 2147483647

/-- Quotient of two rationals. -/
def av_div_q (b c : AVRational) : AVRational :=
  av_mul_q b { num := c.den, den := c.num }

end Reference

/-- Codec context of the video stream of the sample clip: 4 by 2 pixels. -/
def sampleVideoCodec : AVCodecContext :=
  { codec_type := AVMediaType.AVMEDIA_TYPE_VIDEO, codec_id := 28, width := 4, height := 2,
    time_base := { num := 1, den := 50 }, pix_fmt := 0, priv_data := 0 }

/-- Codec context of the audio stream of the sample clip. -/
def sampleAudioCodec : AVCodecContext :=
  { codec_type := AVMediaType.AVMEDIA_TYPE_AUDIO, codec_id := 86017, width := 0, height := 0,
    time_base := { num := 1, den := 44100 }, pix_fmt := -1, priv_data := 0 }

/-- The sample clip: an audio stream, then a video stream of 10 seconds in a
90 kHz time base; five packets are left to read. -/
def sampleContainer : AVFormatContext :=
  { streams := [ { codec := sampleAudioCodec, time_base := { num := 1, den := 44100 },
                   duration := 441000 },
                 { codec := sampleVideoCodec, time_base := { num := 1, den := 90000 },
                   duration := 900000 } ],
    max_analyze_duration := 5000000,
    pending := [(0, { stream_index := 0, data := 1 }), (0, { stream_index := 1, data := 2 }),
                (0, { stream_index := 1, data := 3 }), (0, { stream_index := 0, data := 4 }),
                (0, { stream_index := 1, data := 5 })] }

/-- A library that opens the sample clip at `/media/clip.avi` and rejects every
other file as invalid data (code -22); its decoder completes a picture on every
second video packet. -/
def sampleLibrary : Library :=
  { canonicalFilePath := fun p => p,
    av_open_input_file := fun p =>
      if p = "/media/clip.avi" then (0, some sampleContainer) else (-22, none),
    av_find_stream_info := fun fc => (0, fc),
    avcodec_find_decoder := fun id => if id = 28 then some { id := 28 } else none,
    avcodec_open := fun ctx _ => (0, ctx),
    av_mul_q := Reference.av_mul_q,
    av_div_q := Reference.av_div_q,
    avcodec_alloc_frame := fun _ => some { picture := 0 },
    avpicture_get_size := fun _ w h => w * h * 3,
    sws_getContext := fun a b c d e f g =>
      some { srcW := a, srcH := b, srcFormat := c, dstW := d, dstH := e, dstFormat := f,
             flags := g },
    av_strerror := fun c =>
      if c = -22 then some "Invalid data found when processing input" else none,
    avcodec_decode_video2 := fun ctx _ p =>
      { ret := 1, got_picture := if ctx.priv_data % 2 = 1 then 1 else 0,
        ctx := { ctx with priv_data := ctx.priv_data + 1 },
        frame := some { picture := p.data } },
    sws_scale := fun _ fr _ bytes =>
      match fr with
      | some f => List.replicate bytes.length f.picture
      | none => bytes,
    av_seek_frame := fun fc _ _ _ => (0, fc) }

/-- The sample library with three calls reporting failure: probing the stream
information answers -1, seeking answers -1, and the decoder answers -1 for each
packet that does not complete a picture. -/
def faultyLibrary : Library :=
  { sampleLibrary with
    av_find_stream_info := fun fc => (-1, fc),
    avcodec_decode_video2 := fun ctx _ p =>
      { ret := if ctx.priv_data % 2 = 1 then 1 else -1,
        got_picture := if ctx.priv_data % 2 = 1 then 1 else 0,
        ctx := { ctx with priv_data := ctx.priv_data + 1 },
        frame := some { picture := p.data } },
    av_seek_frame := fun fc _ _ _ => (-1, fc) }

/-- The sample library without any decoder. -/
def noDecoderLibrary : Library :=
  { sampleLibrary with avcodec_find_decoder := fun _ => none }

/-- The sample library with a decoder that cannot be opened (code -22). -/
def brokenDecoderLibrary : Library :=
  { sampleLibrary with avcodec_open := fun ctx _ => (-22, ctx) }

/-- The sample library with a decoder that completes a picture on every packet and
switches the codec context to 8 by 4 pixels while decoding. -/
def resizingLibrary : Library :=
  { sampleLibrary with
    avcodec_decode_video2 := fun ctx _ p =>
      { ret := 1, got_picture := 1,
        ctx := { ctx with width := 8, height := 4, priv_data := ctx.priv_data + 1 },
        frame := some { picture := p.data } } }

/-- The sample clip with a video stream of 2^32 + 900000 ticks (about 13 hours
at 90 kHz). -/
def longContainer : AVFormatContext :=
  { sampleContainer with
    streams := [ { codec := sampleVideoCodec, time_base := { num := 1, den := 90000 },
                   duration := 4295867296 } ] }

/-- The sample library, opening the long clip instead. -/
def longLibrary : Library :=
  { sampleLibrary with
    av_open_input_file := fun p =>
      if p = "/media/long.ts" then (0, some longContainer) else (-22, none) }

/-- The audio stream of the sample clip. -/
def sampleAudioStream : AVStream :=
  { codec := sampleAudioCodec, time_base := { num := 1, den := 44100 }, duration := 441000 }

/-- The video stream of the sample clip. -/
def sampleVideoStream : AVStream :=
  { codec := sampleVideoCodec, time_base := { num := 1, den := 90000 }, duration := 900000 }

/-- A container with 2^31 audio streams followed by one video stream. -/
def hugeContainer : AVFormatContext :=
  { sampleContainer with
    streams := List.replicate 2147483648 sampleAudioStream ++ [sampleVideoStream] }

/-- The sample library, opening the container with 2^31 + 1 streams instead. -/
def hugeLibrary : Library :=
  { sampleLibrary with
    av_open_input_file := fun p =>
      if p = "/media/huge.avi" then (0, some hugeContainer) else (-22, none) }

/-- A library with the rational arithmetic of the decoding library
(`Reference.av_mul_q`, `Reference.av_div_q`) and every other call as in `lib`. -/
def withReferenceRationals (lib : Library) : Library :=
  { lib with av_mul_q := Reference.av_mul_q, av_div_q := Reference.av_div_q }

/-! ## Vocabulary of the properties

`readable`, `videoPackets` and `firstCompleted` describe `frame` in the words of
the specification; the other definitions name what the statements below talk
about. -/

/-- The packets `frame` gets to read: the answers of `av_read_frame` up to the
first negative code. -/
def readable (pending : List (Int × AVPacket)) : List AVPacket :=
  (pending.takeWhile (fun r => decide (r.1 ≥ 0))).map Prod.snd

/-- The packets of the selected video stream, in read order. -/
def videoPackets (vStreamIndex : Int) (packets : List AVPacket) : List AVPacket :=
  packets.filter (fun p => decide (p.stream_index = vStreamIndex))

/-- The decoder fed with the given packets in order: the position of the first
packet on which it reports a completed picture, and what that call left. -/
def firstCompleted (lib : Library) :
    AVCodecContext → Option AVFrame → List AVPacket → Option (Nat × Decoded)
  | _, _, [] => none
  | ctx, fr, p :: rest =>
    if (lib.avcodec_decode_video2 ctx fr p).got_picture ≠ 0 then
      some (0, lib.avcodec_decode_video2 ctx fr p)
    else
      (firstCompleted lib (lib.avcodec_decode_video2 ctx fr p).ctx
        (lib.avcodec_decode_video2 ctx fr p).frame rest).map (fun kr => (kr.1 + 1, kr.2))

/-- The stream `formatContext->streams[vStreamIndex]` of an object. -/
def selectedStream (d : Detail) : Option AVStream :=
  d.formatContext.bind (fun fc => streamAt fc d.vStreamIndex)

/-- The cached dimensions of an object are those of its codec context. -/
def DimsCached (d : Detail) : Prop :=
  ∃ ctx, d.codecContext = some ctx ∧ ctx.width = d.width ∧ ctx.height = d.height

/-- A call on a constructed object. -/
inductive Op
  | frame
  | seek (ms : Int)
  deriving DecidableEq, Repr

/-- The state of an object after a sequence of calls. -/
def run (lib : Library) : Detail → List Op → Detail
  | d, [] => d
  | d, Op.frame :: ops => run lib (frame lib d).detail ops
  | d, Op.seek ms :: ops => run lib (seek lib d ms).detail ops

/-! # Properties -/

/-! ## The stages of the constructor -/

theorem AVCheck_ok_iff (lib : Library) (path : String) (c : Int) :
    AVCheck lib path c = Except.ok () ↔ c = 0 := by
  unfold AVCheck; split <;> simp_all

theorem AVCheck_error_iff (lib : Library) (path : String) (c : Int) (e : Error) :
    AVCheck lib path c = Except.error e ↔ c ≠ 0 ∧ e = AVError lib path c := by
  unfold AVCheck; split <;> simp_all [eq_comm]

theorem prepare_calls (lib : Library) (d : Detail) (s : AVStream) (o : AVCodecContext)
    (calls : List (LibCall × Int)) (acq : List Handle) :
    (prepare lib d s o calls acq).calls = calls := by
  unfold prepare; split <;> rfl

theorem prepare_not_raised (lib : Library) (d : Detail) (s : AVStream) (o : AVCodecContext)
    (calls : List (LibCall × Int)) (acq : List Handle) (e : Error) :
    (prepare lib d s o calls acq).outcome ≠ Result.raised e := by
  unfold prepare; split <;> simp

theorem prepare_kept (lib : Library) (d : Detail) (s : AVStream) (o : AVCodecContext)
    (calls : List (LibCall × Int)) (acq : List Handle) :
    (prepare lib d s o calls acq).detail.formatContext = d.formatContext ∧
    (prepare lib d s o calls acq).detail.vStreamIndex = d.vStreamIndex ∧
    (prepare lib d s o calls acq).detail.codecContext = some (fixTimeBase o) ∧
    (prepare lib d s o calls acq).detail.width = o.width ∧
    (prepare lib d s o calls acq).detail.height = o.height := by
  unfold prepare; split <;> simp

theorem prepare_ok (lib : Library) (d : Detail) (s : AVStream) (o : AVCodecContext)
    (calls : List (LibCall × Int)) (acq : List Handle)
    (h : (prepare lib d s o calls acq).outcome = Result.ok ()) :
    durationMillis lib s = some (prepare lib d s o calls acq).detail.duration := by
  unfold prepare at h ⊢
  split
  · rename_i hnone; simp [hnone] at h
  · rename_i ms hsome; simp [hsome]

theorem prepare_destroy (lib : Library) (d : Detail) (s : AVStream) (o : AVCodecContext)
    (calls : List (LibCall × Int)) (acq0 : List Handle)
    (h1 : d.convertContext = none) (h2 : d.frameRGB = none) (h3 : d.frame = none)
    (h4 : (if d.formatContext.isSome then [Handle.container] else []) = acq0.reverse) :
    (prepare lib d s o calls (acq0 ++ [Handle.decoder])).detail.destroy
      = (prepare lib d s o calls (acq0 ++ [Handle.decoder])).acquired.reverse := by
  unfold prepare
  split
  · simp [Detail.destroy, h1, h2, h3, h4]
  · simp only [Detail.destroy, List.reverse_append, h4]
    simp only [Option.isSome_some, if_true]
    split_ifs <;> simp

theorem openDecoder_calls (lib : Library) (path : String) (d : Detail) (s : AVStream)
    (calls : List (LibCall × Int)) (acq : List Handle) (x : LibCall × Int)
    (hx : x ∈ (openDecoder lib path d s calls acq).calls) :
    x ∈ calls ∨ ∃ codec, lib.avcodec_find_decoder s.codec.codec_id = some codec ∧
      x = (LibCall.avcodec_open, (lib.avcodec_open s.codec codec).1) := by
  simp only [openDecoder] at hx
  split at hx
  · exact Or.inl hx
  · rename_i codec hcodec
    split at hx
    · simp only [List.mem_append, List.mem_singleton] at hx
      exact hx.imp id (fun h => ⟨codec, hcodec, h⟩)
    · rw [prepare_calls] at hx
      simp only [List.mem_append, List.mem_singleton] at hx
      exact hx.imp id (fun h => ⟨codec, hcodec, h⟩)

theorem openDecoder_kept (lib : Library) (path : String) (d : Detail) (s : AVStream)
    (calls : List (LibCall × Int)) (acq : List Handle) :
    (openDecoder lib path d s calls acq).detail.formatContext = d.formatContext ∧
    (openDecoder lib path d s calls acq).detail.vStreamIndex = d.vStreamIndex := by
  simp only [openDecoder]
  split
  · simp
  · split
    · simp
    · exact ⟨(prepare_kept _ _ _ _ _ _).1, (prepare_kept _ _ _ _ _ _).2.1⟩

theorem openDecoder_raised (lib : Library) (path : String) (d : Detail) (s : AVStream)
    (calls : List (LibCall × Int)) (acq : List Handle) (e : Error)
    (h : (openDecoder lib path d s calls acq).outcome = Result.raised e) :
    (lib.avcodec_find_decoder s.codec.codec_id = none ∧ e = Error.UnsupportedFile path) ∨
    ∃ codec, lib.avcodec_find_decoder s.codec.codec_id = some codec ∧
      (lib.avcodec_open s.codec codec).1 ≠ 0 ∧
      e = AVError lib path (lib.avcodec_open s.codec codec).1 := by
  simp only [openDecoder] at h
  split at h
  · rename_i hnone
    simp only [Result.raised.injEq] at h
    exact Or.inl ⟨hnone, h.symm⟩
  · rename_i codec hcodec
    split at h
    · rename_i e' he'
      simp only [Result.raised.injEq] at h
      rw [AVCheck_error_iff] at he'
      exact Or.inr ⟨codec, hcodec, he'.1, h ▸ he'.2⟩
    · exact absurd h (prepare_not_raised _ _ _ _ _ _ _)

theorem openDecoder_ok (lib : Library) (path : String) (d : Detail) (s : AVStream)
    (calls : List (LibCall × Int)) (acq : List Handle)
    (h : (openDecoder lib path d s calls acq).outcome = Result.ok ()) :
    ∃ codec, lib.avcodec_find_decoder s.codec.codec_id = some codec ∧
      (lib.avcodec_open s.codec codec).1 = 0 ∧
      (openDecoder lib path d s calls acq).detail.codecContext
        = some (fixTimeBase (lib.avcodec_open s.codec codec).2) ∧
      (openDecoder lib path d s calls acq).detail.width = (lib.avcodec_open s.codec codec).2.width ∧
      (openDecoder lib path d s calls acq).detail.height
        = (lib.avcodec_open s.codec codec).2.height ∧
      durationMillis lib s = some (openDecoder lib path d s calls acq).detail.duration := by
  simp only [openDecoder] at h ⊢
  split at h
  · simp at h
  · rename_i codec hcodec
    split at h
    · simp at h
    · rename_i hcheck
      rw [AVCheck_ok_iff] at hcheck
      refine ⟨codec, hcodec, hcheck, ?_⟩
      simp only [hcodec] at h ⊢
      exact ⟨(prepare_kept _ _ _ _ _ _).2.2.1, (prepare_kept _ _ _ _ _ _).2.2.2.1,
        (prepare_kept _ _ _ _ _ _).2.2.2.2, prepare_ok _ _ _ _ _ _ h⟩

theorem openDecoder_destroy (lib : Library) (path : String) (d : Detail) (s : AVStream)
    (calls : List (LibCall × Int)) (acq0 : List Handle)
    (h1 : d.convertContext = none) (h2 : d.frameRGB = none) (h3 : d.frame = none)
    (h4 : (if d.formatContext.isSome then [Handle.container] else []) = acq0.reverse)
    (h5 : Handle.decoder ∉ acq0)
    (h : Handle.decoder ∈ (openDecoder lib path d s calls acq0).acquired ∨
      (openDecoder lib path d s calls acq0).detail.codecContext = none) :
    (openDecoder lib path d s calls acq0).detail.destroy
      = (openDecoder lib path d s calls acq0).acquired.reverse := by
  simp only [openDecoder] at h ⊢
  split
  · rename_i hnone
    simp only [hnone] at h
    simp [h5] at h
  · rename_i codec hcodec
    simp only [hcodec] at h
    split
    · rename_i e he
      simp only [he] at h
      simp [h5] at h
    · exact prepare_destroy _ _ _ _ _ _ h1 h2 h3 h4

/-- The five ways the first part of the constructor can end. -/
theorem Bioscope_cases (lib : Library) (_path : String) :
    ∃ c o, lib.av_open_input_file (lib.canonicalFilePath _path) = (c, o) ∧
      ((c ≠ 0 ∧ Bioscope lib _path =
          ⟨{ Detail.init with formatContext := o },
            Result.raised (AVError lib (lib.canonicalFilePath _path) c),
            [(LibCall.av_open_input_file, c)],
            if o.isSome then [Handle.container] else []⟩) ∨
       (c = 0 ∧ o = none ∧ Bioscope lib _path =
          ⟨Detail.init, Result.aborted, [(LibCall.av_open_input_file, 0)], []⟩) ∨
       (∃ fc0 pc fc v d calls, c = 0 ∧ o = some fc0 ∧
          lib.av_find_stream_info
            { fc0 with max_analyze_duration := fc0.max_analyze_duration * 10 } = (pc, fc) ∧
          v = locateLoop fc.streams 0 (-1) ∧
          d = { Detail.init with formatContext := some fc, vStreamIndex := v } ∧
          calls = [(LibCall.av_open_input_file, 0), (LibCall.av_find_stream_info, pc)] ∧
          ((v < 0 ∧ Bioscope lib _path =
              ⟨d, Result.raised (Error.UnsupportedFile (lib.canonicalFilePath _path)), calls,
                [Handle.container]⟩) ∨
           (0 ≤ v ∧ streamAt fc v = none ∧ Bioscope lib _path =
              ⟨d, Result.aborted, calls, [Handle.container]⟩) ∨
           (∃ s, 0 ≤ v ∧ streamAt fc v = some s ∧ Bioscope lib _path =
              openDecoder lib (lib.canonicalFilePath _path) d s calls [Handle.container])))) := by
  rcases hopen : lib.av_open_input_file (lib.canonicalFilePath _path) with ⟨c, o⟩
  refine ⟨c, o, rfl, ?_⟩
  by_cases hc : c = 0
  · subst hc
    cases o with
    | none =>
      refine Or.inr (Or.inl ⟨rfl, rfl, ?_⟩)
      simp [Bioscope, hopen, AVCheck, Detail.init]
    | some fc0 =>
      refine Or.inr (Or.inr ?_)
      rcases hprobe : lib.av_find_stream_info
        { fc0 with max_analyze_duration := fc0.max_analyze_duration * 10 } with ⟨pc, fc⟩
      refine ⟨fc0, pc, fc, _, _, _, rfl, rfl, hprobe, rfl, rfl, rfl, ?_⟩
      by_cases hv : locateLoop fc.streams 0 (-1) < 0
      · refine Or.inl ⟨hv, ?_⟩
        simp [Bioscope, hopen, AVCheck, Detail.init, hprobe, locateVideoStream, hv]
      · cases hs : streamAt fc (locateLoop fc.streams 0 (-1)) with
        | none =>
          refine Or.inr (Or.inl ⟨by omega, rfl, ?_⟩)
          simp [Bioscope, hopen, AVCheck, Detail.init, hprobe, locateVideoStream, hv, hs]
        | some s =>
          refine Or.inr (Or.inr ⟨s, by omega, rfl, ?_⟩)
          simp [Bioscope, hopen, AVCheck, Detail.init, hprobe, locateVideoStream, hv, hs]
  · refine Or.inl ⟨hc, ?_⟩
    simp [Bioscope, hopen, AVCheck, hc]

theorem Bioscope_located (lib : Library) (_path : String) (fc0 : AVFormatContext)
    (hopen : lib.av_open_input_file (lib.canonicalFilePath _path) = (0, some fc0)) :
    (Bioscope lib _path).detail.formatContext = some (lib.av_find_stream_info
      { fc0 with max_analyze_duration := fc0.max_analyze_duration * 10 }).2 ∧
    (Bioscope lib _path).detail.vStreamIndex = locateLoop (lib.av_find_stream_info
      { fc0 with max_analyze_duration := fc0.max_analyze_duration * 10 }).2.streams 0 (-1) := by
  obtain ⟨c, o, ho, hcases⟩ := Bioscope_cases lib _path
  rw [hopen] at ho
  obtain ⟨rfl, rfl⟩ := Prod.mk.inj ho
  rcases hcases with ⟨hc, _⟩ | ⟨_, ho, _⟩ | ⟨fc0', pc, fc, v, d, calls, _, ho, hprobe, hv, hd, _, hrest⟩
  · exact absurd rfl hc
  · cases ho
  · cases ho
    rw [hprobe]
    subst hd
    rcases hrest with ⟨_, hB⟩ | ⟨_, _, hB⟩ | ⟨s, _, _, hB⟩
    · rw [hB]; exact ⟨rfl, hv⟩
    · rw [hB]; exact ⟨rfl, hv⟩
    · rw [hB]
      obtain ⟨h1, h2⟩ := openDecoder_kept lib (lib.canonicalFilePath _path)
        { Detail.init with formatContext := some fc, vStreamIndex := v } s calls [Handle.container]
      exact ⟨h1, h2.trans hv⟩

/-! ## Locating the video stream -/

theorem toInt_of_nonneg_lt {x : Int} (h0 : 0 ≤ x) (h1 : x < 2147483648) : toInt x = x := by
  unfold toInt; omega

theorem locateLoop_no_video (streams : List AVStream) (i : Nat) (v : Int)
    (h : ∀ s ∈ streams, s.codec.codec_type ≠ AVMediaType.AVMEDIA_TYPE_VIDEO) :
    locateLoop streams i v = v := by
  induction streams generalizing i with
  | nil => rfl
  | cons s rest ih =>
    have hs := h s (List.mem_cons_self _ _)
    simp only [locateLoop, hs, if_false]
    exact ih (i + 1) (fun t ht => h t (List.mem_cons_of_mem _ ht))

theorem locateLoop_first_video (streams : List AVStream) (i : Nat) (v : Int)
    (h : ∃ s ∈ streams, s.codec.codec_type = AVMediaType.AVMEDIA_TYPE_VIDEO) :
    ∃ k : Nat, k < streams.length ∧ locateLoop streams i v = toInt ((i + k : Nat) : Int) ∧
      (∃ s, streams[k]? = some s ∧ s.codec.codec_type = AVMediaType.AVMEDIA_TYPE_VIDEO) ∧
      ∀ j : Nat, j < k → ∀ t, streams[j]? = some t →
        t.codec.codec_type ≠ AVMediaType.AVMEDIA_TYPE_VIDEO := by
  induction streams generalizing i with
  | nil => obtain ⟨s, hs, _⟩ := h; cases hs
  | cons s rest ih =>
    by_cases hs : s.codec.codec_type = AVMediaType.AVMEDIA_TYPE_VIDEO
    · refine ⟨0, by simp, by simp [locateLoop, hs], ⟨s, by simp, hs⟩, ?_⟩
      intro j hj; omega
    · have hrest : ∃ t ∈ rest, t.codec.codec_type = AVMediaType.AVMEDIA_TYPE_VIDEO := by
        obtain ⟨t, ht, hv⟩ := h
        rcases List.mem_cons.mp ht with rfl | ht
        · exact absurd hv hs
        · exact ⟨t, ht, hv⟩
      obtain ⟨k, hk, hloop, ⟨t, ht, hv⟩, hmin⟩ := ih (i + 1) hrest
      refine ⟨k + 1, by simp; omega, ?_, ⟨t, by simpa using ht, hv⟩, ?_⟩
      · simp only [locateLoop, hs, if_false, hloop]
        congr 2; omega
      · intro j hj u hu
        cases j with
        | zero => simp at hu; subst hu; exact hs
        | succ j => exact hmin j (by omega) u (by simpa using hu)

theorem locateLoop_skip (xs ys : List AVStream) (i : Nat) (v : Int)
    (h : ∀ s ∈ xs, s.codec.codec_type ≠ AVMediaType.AVMEDIA_TYPE_VIDEO) :
    locateLoop (xs ++ ys) i v = locateLoop ys (i + xs.length) v := by
  induction xs generalizing i with
  | nil => rfl
  | cons s rest ih =>
    have hs := h s (List.mem_cons_self _ _)
    have hstep : locateLoop (s :: (rest ++ ys)) i v = locateLoop (rest ++ ys) (i + 1) v := by
      simp only [locateLoop, hs, if_false]
    rw [List.cons_append, hstep, ih (i + 1) (fun t ht => h t (List.mem_cons_of_mem _ ht)),
      List.length_cons]
    congr 1; omega

theorem openDecoder_no_decoder (lib : Library) (path : String) (d : Detail) (s : AVStream)
    (calls : List (LibCall × Int)) (acq : List Handle)
    (h : lib.avcodec_find_decoder s.codec.codec_id = none) :
    (openDecoder lib path d s calls acq).outcome
      = Result.raised (Error.UnsupportedFile path) := by
  simp [openDecoder, h]

/-- C4 (amended). After a successful open of a container with at most 2^31
streams, the constructor selects the first stream of media type video, and it
raises `UnsupportedFile` exactly when no stream is a video stream or no decoder
is found for the selected stream.  The locating step itself raises exactly when
no stream is a video stream; otherwise `vStreamIndex` is the smallest index of a
video stream, within `0 .. nb_streams-1`. -/
theorem locate_first_video_stream (lib : Library) (_path : String) (fc0 : AVFormatContext)
    (streams : List AVStream)
    (hopen : lib.av_open_input_file (lib.canonicalFilePath _path) = (0, some fc0))
    (hprobe : (lib.av_find_stream_info
      { fc0 with max_analyze_duration := fc0.max_analyze_duration * 10 }).2.streams = streams)
    (hlen : streams.length ≤ 2147483648) :
    ((Bioscope lib _path).outcome
        = Result.raised (Error.UnsupportedFile (lib.canonicalFilePath _path))
      ↔ (∀ s ∈ streams, s.codec.codec_type ≠ AVMediaType.AVMEDIA_TYPE_VIDEO) ∨
        ∃ (k : Nat) (s : AVStream), streams[k]? = some s ∧
          s.codec.codec_type = AVMediaType.AVMEDIA_TYPE_VIDEO ∧
          (∀ j : Nat, j < k → ∀ t, streams[j]? = some t →
            t.codec.codec_type ≠ AVMediaType.AVMEDIA_TYPE_VIDEO) ∧
          lib.avcodec_find_decoder s.codec.codec_id = none) ∧
    ((locateVideoStream (lib.canonicalFilePath _path) streams (-1)).2
        = Except.error (Error.UnsupportedFile (lib.canonicalFilePath _path))
      ↔ ∀ s ∈ streams, s.codec.codec_type ≠ AVMediaType.AVMEDIA_TYPE_VIDEO) ∧
    ((∀ s ∈ streams, s.codec.codec_type ≠ AVMediaType.AVMEDIA_TYPE_VIDEO) →
      (Bioscope lib _path).outcome
        = Result.raised (Error.UnsupportedFile (lib.canonicalFilePath _path))) ∧
    ((∃ s ∈ streams, s.codec.codec_type = AVMediaType.AVMEDIA_TYPE_VIDEO) →
      ∃ k : Nat, k < streams.length ∧
        (locateVideoStream (lib.canonicalFilePath _path) streams (-1)).1 = (k : Int) ∧
        (Bioscope lib _path).detail.vStreamIndex = (k : Int) ∧
        (∃ s, streams[k]? = some s ∧ s.codec.codec_type = AVMediaType.AVMEDIA_TYPE_VIDEO) ∧
        ∀ j : Nat, j < k → ∀ t, streams[j]? = some t →
          t.codec.codec_type ≠ AVMediaType.AVMEDIA_TYPE_VIDEO) := by
  have key : ∀ (_ : ∃ s ∈ streams, s.codec.codec_type = AVMediaType.AVMEDIA_TYPE_VIDEO),
      ∃ k : Nat, k < streams.length ∧ locateLoop streams 0 (-1) = (k : Int) ∧
        (∃ s, streams[k]? = some s ∧ s.codec.codec_type = AVMediaType.AVMEDIA_TYPE_VIDEO) ∧
        ∀ j : Nat, j < k → ∀ t, streams[j]? = some t →
          t.codec.codec_type ≠ AVMediaType.AVMEDIA_TYPE_VIDEO := by
    intro h
    obtain ⟨k, hk, hloop, hv, hmin⟩ := locateLoop_first_video streams 0 (-1) h
    refine ⟨k, hk, ?_, hv, hmin⟩
    rw [hloop, Nat.zero_add]
    exact toInt_of_nonneg_lt (by omega) (by omega)
  have hnone : (∀ s ∈ streams, s.codec.codec_type ≠ AVMediaType.AVMEDIA_TYPE_VIDEO) →
      (Bioscope lib _path).outcome
        = Result.raised (Error.UnsupportedFile (lib.canonicalFilePath _path)) := by
    intro hno
    obtain ⟨c, o, ho, hcases⟩ := Bioscope_cases lib _path
    rw [hopen] at ho
    obtain ⟨rfl, rfl⟩ := Prod.mk.inj ho
    rcases hcases with ⟨hc, _⟩ | ⟨_, ho, _⟩ |
      ⟨fc0', pc, fc, v, d, calls, _, ho, hp, hv, _, _, hrest⟩
    · exact absurd rfl hc
    · cases ho
    · cases ho
      rw [hp] at hprobe
      simp only at hprobe
      rw [hprobe, locateLoop_no_video streams 0 (-1) hno] at hv
      rcases hrest with ⟨_, hB⟩ | ⟨h0, _, _⟩ | ⟨s, h0, _, _⟩
      · rw [hB]
      · omega
      · omega
  refine ⟨?_, ?_, hnone, ?_⟩
  · constructor
    · intro hraised
      by_cases hno : ∀ s ∈ streams, s.codec.codec_type ≠ AVMediaType.AVMEDIA_TYPE_VIDEO
      · exact Or.inl hno
      · right
        push_neg at hno
        obtain ⟨k, hk, hloop, ⟨s, hsk, hvideo⟩, hmin⟩ := key hno
        refine ⟨k, s, hsk, hvideo, hmin, ?_⟩
        obtain ⟨c, o, ho, hcases⟩ := Bioscope_cases lib _path
        rw [hopen] at ho
        obtain ⟨rfl, rfl⟩ := Prod.mk.inj ho
        rcases hcases with ⟨hc, _⟩ | ⟨_, ho, _⟩ |
          ⟨fc0', pc, fc, v, d, calls, _, ho, hp, hv, _, _, hrest⟩
        · exact absurd rfl hc
        · cases ho
        · cases ho
          rw [hp] at hprobe
          simp only at hprobe
          rw [hprobe, hloop] at hv
          rcases hrest with ⟨h0, _⟩ | ⟨_, _, hB⟩ | ⟨s', _, hs', hB⟩
          · omega
          · rw [hB] at hraised; simp at hraised
          · have hs'' : s' = s := by
              subst hv
              simp only [streamAt, Int.toNat_ofNat, hprobe] at hs'
              rw [if_pos (by omega), hsk] at hs'
              exact (Option.some.inj hs').symm
            subst hs''
            rw [hB] at hraised
            rcases openDecoder_raised _ _ _ _ _ _ _ hraised with ⟨hdec, _⟩ | ⟨codec, _, _, he⟩
            · exact hdec
            · simp [AVError] at he
    · rintro (hno | ⟨k, s, hsk, hvideo, hmin, hdec⟩)
      · exact hnone hno
      · have hex : ∃ s ∈ streams, s.codec.codec_type = AVMediaType.AVMEDIA_TYPE_VIDEO :=
          ⟨s, List.getElem?_mem hsk, hvideo⟩
        obtain ⟨k', hk', hloop, ⟨s', hsk', hvideo'⟩, hmin'⟩ := key hex
        have hkk : k' = k := by
          rcases Nat.lt_trichotomy k' k with hlt | heq | hgt
          · exact absurd hvideo' (hmin k' hlt s' hsk')
          · exact heq
          · exact absurd hvideo (hmin' k hgt s hsk)
        subst hkk
        obtain ⟨c, o, ho, hcases⟩ := Bioscope_cases lib _path
        rw [hopen] at ho
        obtain ⟨rfl, rfl⟩ := Prod.mk.inj ho
        rcases hcases with ⟨hc, _⟩ | ⟨_, ho, _⟩ |
          ⟨fc0', pc, fc, v, d, calls, _, ho, hp, hv, _, _, hrest⟩
        · exact absurd rfl hc
        · cases ho
        · cases ho
          rw [hp] at hprobe
          simp only at hprobe
          rw [hprobe, hloop] at hv
          have hat : streamAt fc v = some s := by
            subst hv
            simp only [streamAt, Int.toNat_ofNat, hprobe]
            rw [if_pos (by omega), hsk]
          rcases hrest with ⟨h0, _⟩ | ⟨_, hn, _⟩ | ⟨s'', _, hs'', hB⟩
          · omega
          · rw [hat] at hn; cases hn
          · rw [hat] at hs''
            cases hs''
            rw [hB]
            exact openDecoder_no_decoder _ _ _ _ _ _ hdec
  · constructor
    · intro herr
      by_contra hne
      push_neg at hne
      obtain ⟨k, _, hloop, _, _⟩ := key hne
      simp [locateVideoStream, hloop] at herr
    · intro hno
      simp [locateVideoStream, locateLoop_no_video streams 0 (-1) hno]
  · intro h
    obtain ⟨k, hk, hloop, hv, hmin⟩ := key h
    refine ⟨k, hk, by simp [locateVideoStream, hloop], ?_, hv, hmin⟩
    rw [(Bioscope_located lib _path fc0 hopen).2, hprobe, hloop]

/-- The sample clip: the video stream is found at index 1, after the audio
stream. -/
theorem locate_first_video_stream_witness :
    sampleLibrary.av_open_input_file (sampleLibrary.canonicalFilePath "/media/clip.avi")
      = (0, some sampleContainer) ∧
    sampleContainer.streams.length ≤ 2147483648 ∧
    ∃ k : Nat, k < sampleContainer.streams.length ∧
      (locateVideoStream (sampleLibrary.canonicalFilePath "/media/clip.avi")
        sampleContainer.streams (-1)).1 = (k : Int) ∧
      (Bioscope sampleLibrary "/media/clip.avi").detail.vStreamIndex = (k : Int) ∧
      (∃ s, sampleContainer.streams[k]? = some s ∧
        s.codec.codec_type = AVMediaType.AVMEDIA_TYPE_VIDEO) ∧
      ∀ j : Nat, j < k → ∀ t, sampleContainer.streams[j]? = some t →
        t.codec.codec_type ≠ AVMediaType.AVMEDIA_TYPE_VIDEO :=
  ⟨rfl, by decide,
    (locate_first_video_stream sampleLibrary "/media/clip.avi" sampleContainer
      sampleContainer.streams rfl rfl (by decide)).2.2.2
      ⟨{ codec := sampleVideoCodec, time_base := { num := 1, den := 90000 },
         duration := 900000 }, by decide, rfl⟩⟩

theorem locateLoop_huge :
    locateLoop hugeContainer.streams 0 (-1) = -2147483648 := by
  have h : ∀ s ∈ List.replicate 2147483648 sampleAudioStream,
      s.codec.codec_type ≠ AVMediaType.AVMEDIA_TYPE_VIDEO := by
    intro s hs
    rw [List.eq_of_mem_replicate hs]
    decide
  have hstreams : hugeContainer.streams
      = List.replicate 2147483648 sampleAudioStream ++ [sampleVideoStream] := rfl
  rw [hstreams, locateLoop_skip _ _ _ _ h, List.length_replicate]
  have hv : sampleVideoStream.codec.codec_type = AVMediaType.AVMEDIA_TYPE_VIDEO := rfl
  have hone : locateLoop [sampleVideoStream] (0 + 2147483648) (-1)
      = toInt ((0 + 2147483648 : Nat) : Int) := by
    simp only [locateLoop, hv, if_true]
  rw [hone]
  decide

/-- C4 (counterexample). The constructor raises `UnsupportedFile` although the
container has a video stream: when no decoder is found for it, and when the
first video stream comes after 2^31 other streams, so that its index stored as
an `int` is negative. -/
theorem unsupported_with_video_stream :
    ((Bioscope noDecoderLibrary "/media/clip.avi").outcome
        = Result.raised (Error.UnsupportedFile "/media/clip.avi") ∧
      (Bioscope noDecoderLibrary "/media/clip.avi").detail.vStreamIndex = 1 ∧
      sampleContainer.streams[1]? = some sampleVideoStream ∧
      sampleVideoStream.codec.codec_type = AVMediaType.AVMEDIA_TYPE_VIDEO) ∧
    ((Bioscope hugeLibrary "/media/huge.avi").outcome
        = Result.raised (Error.UnsupportedFile "/media/huge.avi") ∧
      (Bioscope hugeLibrary "/media/huge.avi").detail.vStreamIndex = -2147483648 ∧
      hugeContainer.streams[2147483648]? = some sampleVideoStream ∧
      sampleVideoStream.codec.codec_type = AVMediaType.AVMEDIA_TYPE_VIDEO) := by
  have hopen : hugeLibrary.av_open_input_file (hugeLibrary.canonicalFilePath "/media/huge.avi")
      = (0, some hugeContainer) := rfl
  refine ⟨by decide, ?_, ?_, ?_, rfl⟩
  · obtain ⟨c, o, ho, hcases⟩ := Bioscope_cases hugeLibrary "/media/huge.avi"
    rw [hopen] at ho
    obtain ⟨rfl, rfl⟩ := Prod.mk.inj ho
    rcases hcases with ⟨hc, _⟩ | ⟨_, ho, _⟩ |
      ⟨fc0', pc, fc, v, d, calls, _, ho, hp, hv, _, _, hrest⟩
    · exact absurd rfl hc
    · cases ho
    · cases ho
      have hfc : fc.streams = hugeContainer.streams := by
        have hp2 := congrArg (fun r => r.2.streams) hp
        exact hp2.symm
      rw [hfc, locateLoop_huge] at hv
      rcases hrest with ⟨_, hB⟩ | ⟨h0, _, _⟩ | ⟨s, h0, _, _⟩
      · rw [hB]; rfl
      · omega
      · omega
  · rw [(Bioscope_located hugeLibrary "/media/huge.avi" hugeContainer hopen).2]
    exact locateLoop_huge
  · have hstreams : hugeContainer.streams
        = List.replicate 2147483648 sampleAudioStream ++ [sampleVideoStream] := rfl
    rw [hstreams, List.getElem?_append_right (Nat.le_of_eq (List.length_replicate _ _)),
      List.length_replicate]
    rfl

/-! ## `supportedFile` -/

/-- C10. `supportedFile` never raises; it returns true exactly when the
constructor completes, and false whenever the constructor raises (`AVError` or
`UnsupportedFile`). -/
theorem supportedFile_iff_constructed (lib : Library) (path : String) :
    (∀ e, supportedFile lib path ≠ Result.raised e) ∧
    (supportedFile lib path = Result.ok true ↔ (Bioscope lib path).outcome = Result.ok ()) ∧
    (∀ e, (Bioscope lib path).outcome = Result.raised e →
      supportedFile lib path = Result.ok false) := by
  unfold supportedFile
  cases h : (Bioscope lib path).outcome <;> simp

/-! ## Error codes -/

theorem openDecoder_open_failed (lib : Library) (path : String) (d : Detail) (s : AVStream)
    (calls : List (LibCall × Int)) (acq : List Handle) (codec : AVCodec)
    (hcodec : lib.avcodec_find_decoder s.codec.codec_id = some codec)
    (hc : (lib.avcodec_open s.codec codec).1 ≠ 0) :
    (openDecoder lib path d s calls acq).outcome
      = Result.raised (AVError lib path (lib.avcodec_open s.codec codec).1) := by
  simp [openDecoder, hcodec, AVCheck, hc]

theorem frameLoop_read_error (lib : Library) (v : Int) (conv : Option SwsContext)
    (pending : List (Int × AVPacket)) (ctx : AVCodecContext) (fr : Option AVFrame)
    (bytes : List Nat) (c : Int)
    (hmem : (LibCall.av_read_frame, c) ∈ (frameLoop lib v conv pending ctx fr bytes).calls)
    (hc : c < 0) :
    (frameLoop lib v conv pending ctx fr bytes).image = QImage.null := by
  induction pending generalizing ctx fr with
  | nil => rfl
  | cons r rest ih =>
    obtain ⟨c', p⟩ := r
    by_cases h0 : c' ≥ 0
    · by_cases hv : p.stream_index = v
      · by_cases hg : (lib.avcodec_decode_video2 ctx fr p).got_picture ≠ 0
        · rw [frameLoop, if_pos h0, if_pos hv, if_pos hg] at hmem
          simp at hmem
          omega
        · rw [frameLoop, if_pos h0, if_pos hv, if_neg hg] at hmem ⊢
          simp at hmem
          rcases hmem with h | h
          · omega
          · exact ih _ _ h
      · rw [frameLoop, if_pos h0, if_neg hv] at hmem ⊢
        simp at hmem
        rcases hmem with h | h
        · omega
        · exact ih _ _ h
    · rw [frameLoop, if_neg h0]

/-- C1 (amended). The two checked calls of the constructor propagate their code:
a non-zero code from the container open or from the decoder open ends the
constructor with `AVError`; and a negative code from a packet read ends `frame`
with the null image. -/
theorem checked_codes_propagate (lib : Library) (path : String) (d : Detail) :
    (∀ c, (LibCall.av_open_input_file, c) ∈ (Bioscope lib path).calls → c ≠ 0 →
      (Bioscope lib path).outcome
        = Result.raised (AVError lib (lib.canonicalFilePath path) c)) ∧
    (∀ c, (LibCall.avcodec_open, c) ∈ (Bioscope lib path).calls → c ≠ 0 →
      (Bioscope lib path).outcome
        = Result.raised (AVError lib (lib.canonicalFilePath path) c)) ∧
    (∀ c, (LibCall.av_read_frame, c) ∈ (frame lib d).calls → c < 0 →
      (frame lib d).image = Result.ok QImage.null) := by
  refine ⟨?_, ?_, ?_⟩
  · intro c' hmem hc'
    obtain ⟨c, o, _, hcases⟩ := Bioscope_cases lib path
    rcases hcases with ⟨_, hB⟩ | ⟨_, _, hB⟩ |
      ⟨fc0, pc, fc, v, d, calls, _, _, _, _, _, hcalls, hrest⟩
    · rw [hB] at hmem ⊢
      simp at hmem
      rw [hmem]
    · rw [hB] at hmem
      simp at hmem
      exact absurd hmem hc'
    · subst hcalls
      rcases hrest with ⟨_, hB⟩ | ⟨_, _, hB⟩ | ⟨s, _, _, hB⟩
      · rw [hB] at hmem; simp at hmem; exact absurd hmem hc'
      · rw [hB] at hmem; simp at hmem; exact absurd hmem hc'
      · rw [hB] at hmem
        rcases openDecoder_calls _ _ _ _ _ _ _ hmem with h | ⟨_, _, h⟩
        · simp at h; exact absurd h hc'
        · simp at h
  · intro c' hmem hc'
    obtain ⟨c, o, _, hcases⟩ := Bioscope_cases lib path
    rcases hcases with ⟨_, hB⟩ | ⟨_, _, hB⟩ |
      ⟨fc0, pc, fc, v, d, calls, _, _, _, _, _, hcalls, hrest⟩
    · rw [hB] at hmem; simp at hmem
    · rw [hB] at hmem; simp at hmem
    · subst hcalls
      rcases hrest with ⟨_, hB⟩ | ⟨_, _, hB⟩ | ⟨s, _, _, hB⟩
      · rw [hB] at hmem; simp at hmem
      · rw [hB] at hmem; simp at hmem
      · rw [hB] at hmem ⊢
        rcases openDecoder_calls _ _ _ _ _ _ _ hmem with h | ⟨codec, hcodec, h⟩
        · simp at h
        · simp only [Prod.mk.injEq, true_and] at h
          subst h
          exact openDecoder_open_failed _ _ _ _ _ _ codec hcodec hc'
  · intro c hmem hc
    cases hfc : d.formatContext <;> cases hctx : d.codecContext <;>
      simp only [frame, hfc, hctx] at hmem ⊢
    · simp at hmem
    · simp at hmem
    · simp at hmem
    · rw [frameLoop_read_error lib _ _ _ _ _ _ c hmem hc]

/-- C1 (counterexample). Three calls report a negative code and the operation
goes on: stream-information probing in the constructor, video decoding in
`frame`, and the seek call in `seek`. -/
theorem unchecked_codes_ignored :
    ((LibCall.av_find_stream_info, (-1 : Int)) ∈ (Bioscope faultyLibrary "/media/clip.avi").calls ∧
      (Bioscope faultyLibrary "/media/clip.avi").outcome = Result.ok ()) ∧
    ((LibCall.avcodec_decode_video2, (-1 : Int)) ∈
        (frame faultyLibrary (Bioscope faultyLibrary "/media/clip.avi").detail).calls ∧
      (frame faultyLibrary (Bioscope faultyLibrary "/media/clip.avi").detail).image
        = Result.ok (QImage.fromData (List.replicate 24 3) 4 2)) ∧
    ((LibCall.av_seek_frame, (-1 : Int)) ∈
        (seek faultyLibrary (Bioscope faultyLibrary "/media/clip.avi").detail 1500).calls ∧
      (seek faultyLibrary (Bioscope faultyLibrary "/media/clip.avi").detail 1500).outcome
        = Result.ok ()) := by
  decide

/-! ## Release of the handles -/

/-- Whenever the decoder was opened, or no codec context was taken yet, the
destructor releases exactly the acquired handles, in reverse order. -/
theorem destroy_reverse_of_decoder_opened (lib : Library) (path : String)
    (h : Handle.decoder ∈ (Bioscope lib path).acquired ∨
      (Bioscope lib path).detail.codecContext = none) :
    (Bioscope lib path).detail.destroy = (Bioscope lib path).acquired.reverse := by
  obtain ⟨c, o, _, hcases⟩ := Bioscope_cases lib path
  rcases hcases with ⟨_, hB⟩ | ⟨_, _, hB⟩ |
    ⟨fc0, pc, fc, v, d, calls, _, _, _, _, hd, _, hrest⟩
  · rw [hB]
    cases o <;> simp [Detail.destroy, Detail.init]
  · rw [hB]; simp [Detail.destroy, Detail.init]
  · subst hd
    rcases hrest with ⟨_, hB⟩ | ⟨_, _, hB⟩ | ⟨s, _, _, hB⟩
    · rw [hB]; simp [Detail.destroy, Detail.init]
    · rw [hB]; simp [Detail.destroy, Detail.init]
    · rw [hB] at h ⊢
      exact openDecoder_destroy _ _ _ _ _ _ rfl rfl rfl (by simp [Detail.init]) (by simp) h

/-- C3 (failing input). When no decoder is found for the video stream, or the
decoder cannot be opened, the only handle acquired is the container, yet the
destructor releases a decoder before the container. -/
theorem destroy_closes_unopened_decoder :
    ((Bioscope noDecoderLibrary "/media/clip.avi").outcome
        = Result.raised (Error.UnsupportedFile "/media/clip.avi") ∧
      (Bioscope noDecoderLibrary "/media/clip.avi").acquired = [Handle.container] ∧
      (Bioscope noDecoderLibrary "/media/clip.avi").detail.destroy
        = [Handle.decoder, Handle.container]) ∧
    ((Bioscope brokenDecoderLibrary "/media/clip.avi").outcome
        = Result.raised (Error.AVError
            "FFMpeg error at /media/clip.avi: 'Invalid data found when processing input'") ∧
      (Bioscope brokenDecoderLibrary "/media/clip.avi").acquired = [Handle.container] ∧
      (Bioscope brokenDecoderLibrary "/media/clip.avi").detail.destroy
        = [Handle.decoder, Handle.container]) := by
  decide

/-! ## The message of `AVError` -/

theorem findArgEscapes_plain (xs ys : List Char) (h : '%' ∉ xs) :
    findArgEscapes 0 (xs ++ ys) = xs.map Piece.text ++ findArgEscapes 0 ys := by
  induction xs with
  | nil => rfl
  | cons c rest ih =>
    have hc : c ≠ '%' := fun e => h (e ▸ List.mem_cons_self _ _)
    have hrest : '%' ∉ rest := fun m => h (List.mem_cons_of_mem _ m)
    simp only [List.cons_append, findArgEscapes, hc, if_false, List.map_cons]
    exact congrArg _ (ih hrest)

theorem lowestEscape_plain (xs : List Char) (ps : List Piece) :
    lowestEscape (xs.map Piece.text ++ ps) = lowestEscape ps := by
  induction xs with
  | nil => rfl
  | cons c rest ih => simpa [lowestEscape] using ih

theorem replaceArgEscapes_plain (m : Nat) (a xs : List Char) (ps : List Piece) :
    replaceArgEscapes m a (xs.map Piece.text ++ ps) = xs ++ replaceArgEscapes m a ps := by
  induction xs with
  | nil => rfl
  | cons c rest ih => simpa [replaceArgEscapes] using ih

theorem arg_path (path : String) :
    arg "FFMpeg error at %1: '%2'" path = "FFMpeg error at " ++ path ++ ": '%2'" := by
  apply String.ext
  have h : findArgEscapes 0 ("FFMpeg error at %1: '%2'" : String).data
      = ("FFMpeg error at " : String).data.map Piece.text
        ++ (Piece.escape 1 ['%', '1'] :: ((": '" : String).data.map Piece.text
        ++ [Piece.escape 2 ['%', '2'], Piece.text '\''])) := by decide
  unfold arg
  rw [h]
  simp [lowestEscape, replaceArgEscapes, String.data_append]

theorem arg_text (path text : String) (h : '%' ∉ path.data) :
    arg ("FFMpeg error at " ++ path ++ ": '%2'") text
      = "FFMpeg error at " ++ path ++ ": '" ++ text ++ "'" := by
  apply String.ext
  have hpre : '%' ∉ ("FFMpeg error at " : String).data ++ path.data := by
    intro hm
    rcases List.mem_append.mp hm with hm | hm
    · revert hm; decide
    · exact h hm
  have hsuf : findArgEscapes 0 (": '%2'" : String).data
      = (": '" : String).data.map Piece.text
        ++ [Piece.escape 2 ['%', '2'], Piece.text '\''] := by decide
  have hscan : findArgEscapes 0 ("FFMpeg error at " ++ path ++ ": '%2'" : String).data
      = (("FFMpeg error at " : String).data ++ path.data ++ (": '" : String).data).map Piece.text
        ++ [Piece.escape 2 ['%', '2'], Piece.text '\''] := by
    rw [String.data_append, String.data_append, findArgEscapes_plain _ _ hpre, hsuf]
    simp
  unfold arg
  rw [hscan, lowestEscape_plain]
  simp [lowestEscape, replaceArgEscapes, replaceArgEscapes_plain, String.data_append]

/-- For a path without `%`, the message of `AVError` is the path and the
description of the code in the fixed frame. -/
theorem AVError_message (lib : Library) (path : String) (c : Int) (h : '%' ∉ path.data) :
    AVError lib path c
      = Error.AVError ("FFMpeg error at " ++ path ++ ": '" ++ Detail.fferror lib c ++ "'") := by
  unfold AVError
  rw [arg_path, arg_text _ _ h]

/-- C2 (failing input). For a file whose canonical path contains the place
marker `%1`, a failed open raises `AVError` with the library's description
substituted inside the path and `%2` left where the description belongs. -/
theorem AVError_message_garbled :
    sampleLibrary.av_open_input_file (sampleLibrary.canonicalFilePath "/media/%1.txt")
      = (-22, none) ∧
    Detail.fferror sampleLibrary (-22) = "Invalid data found when processing input" ∧
    (Bioscope sampleLibrary "/media/%1.txt").outcome
      = Result.raised (Error.AVError
          "FFMpeg error at /media/Invalid data found when processing input.txt: '%2'") ∧
    (Bioscope sampleLibrary "/media/%1.txt").outcome
      ≠ Result.raised (Error.AVError
          "FFMpeg error at /media/%1.txt: 'Invalid data found when processing input'") := by
  decide

/-! ## `frame` -/

theorem readable_cons (c : Int) (p : AVPacket) (rest : List (Int × AVPacket)) :
    readable ((c, p) :: rest) = if c ≥ 0 then p :: readable rest else [] := by
  unfold readable
  by_cases h : c ≥ 0 <;> simp [List.takeWhile_cons, h]

theorem videoPackets_cons (v : Int) (p : AVPacket) (ps : List AVPacket) :
    videoPackets v (p :: ps)
      = if p.stream_index = v then p :: videoPackets v ps else videoPackets v ps := by
  unfold videoPackets
  by_cases h : p.stream_index = v <;> simp [List.filter_cons, h]

/-- The read loop against its description: null image exactly when no readable
video packet completes a picture; otherwise the picture of the first one that
does, with the packets after it left in `pending`. -/
theorem frameLoop_spec (lib : Library) (v : Int) (conv : Option SwsContext)
    (pending : List (Int × AVPacket)) (ctx : AVCodecContext) (fr : Option AVFrame)
    (bytes : List Nat) :
    ((frameLoop lib v conv pending ctx fr bytes).image = QImage.null ↔
      firstCompleted lib ctx fr (videoPackets v (readable pending)) = none) ∧
    (∀ k r, firstCompleted lib ctx fr (videoPackets v (readable pending)) = some (k, r) →
      (frameLoop lib v conv pending ctx fr bytes).image
        = QImage.fromData (lib.sws_scale conv r.frame r.ctx.height bytes) r.ctx.width r.ctx.height ∧
      ∃ pre c p, pending = pre ++ (c, p) :: (frameLoop lib v conv pending ctx fr bytes).pending ∧
        (∀ x ∈ pre, x.1 ≥ 0) ∧ c ≥ 0 ∧ p.stream_index = v ∧
        (videoPackets v (pre.map Prod.snd)).length = k) := by
  induction pending generalizing ctx fr with
  | nil =>
    simp [frameLoop, readable, videoPackets, firstCompleted]
  | cons x rest ih =>
    obtain ⟨c, p⟩ := x
    by_cases h0 : c ≥ 0
    · by_cases hv : p.stream_index = v
      · by_cases hg : (lib.avcodec_decode_video2 ctx fr p).got_picture ≠ 0
        · rw [frameLoop, if_pos h0, if_pos hv, if_pos hg, readable_cons, if_pos h0,
            videoPackets_cons, if_pos hv, firstCompleted, if_pos hg]
          refine ⟨by simp, ?_⟩
          intro k r hkr
          simp only [Option.some.injEq, Prod.mk.injEq] at hkr
          obtain ⟨rfl, rfl⟩ := hkr
          exact ⟨rfl, [], c, p, rfl, by simp, h0, hv, rfl⟩
        · rw [frameLoop, if_pos h0, if_pos hv, if_neg hg, readable_cons, if_pos h0,
            videoPackets_cons, if_pos hv, firstCompleted, if_neg hg]
          obtain ⟨ih1, ih2⟩ := ih (lib.avcodec_decode_video2 ctx fr p).ctx
            (lib.avcodec_decode_video2 ctx fr p).frame
          refine ⟨by simpa using ih1, ?_⟩
          intro k r hkr
          simp only [Option.map_eq_some', Prod.mk.injEq] at hkr
          obtain ⟨⟨k', r'⟩, hsome, rfl, rfl⟩ := hkr
          obtain ⟨himg, pre, c', p', hpre, hall, hc', hp', hlen⟩ := ih2 k' r' hsome
          refine ⟨himg, (c, p) :: pre, c', p', ?_, ?_, hc', hp', ?_⟩
          · simp only [List.cons_append]
            exact congrArg _ hpre
          · intro x hx
            rcases List.mem_cons.mp hx with rfl | hx
            · exact h0
            · exact hall x hx
          · simp [videoPackets_cons, hv, hlen]
      · rw [frameLoop, if_pos h0, if_neg hv, readable_cons, if_pos h0,
          videoPackets_cons, if_neg hv]
        obtain ⟨ih1, ih2⟩ := ih ctx fr
        refine ⟨by simpa using ih1, ?_⟩
        intro k r hkr
        obtain ⟨himg, pre, c', p', hpre, hall, hc', hp', hlen⟩ := ih2 k r hkr
        refine ⟨himg, (c, p) :: pre, c', p', ?_, ?_, hc', hp', ?_⟩
        · simp only [List.cons_append]
          exact congrArg _ hpre
        · intro x hx
          rcases List.mem_cons.mp hx with rfl | hx
          · exact h0
          · exact hall x hx
        · simp [videoPackets_cons, hv, hlen]
    · rw [frameLoop, if_neg h0, readable_cons, if_neg h0]
      simp [videoPackets, firstCompleted]

/-- C5. `frame` reads the packets in order, skips those of other streams, feeds
the packets of the video stream to the decoder, and returns the converted
picture of the first one that completes a frame, leaving every later packet
unread; it returns the null image exactly when the readable packets end before
a video packet completes a frame. -/
theorem frame_decodes_next_picture (lib : Library) (d : Detail) (fc : AVFormatContext)
    (ctx : AVCodecContext) (hfc : d.formatContext = some fc) (hctx : d.codecContext = some ctx) :
    ((frame lib d).image = Result.ok QImage.null ↔
      firstCompleted lib ctx d.frame (videoPackets d.vStreamIndex (readable fc.pending)) = none) ∧
    (∀ k r, firstCompleted lib ctx d.frame (videoPackets d.vStreamIndex (readable fc.pending))
        = some (k, r) →
      (frame lib d).image = Result.ok (QImage.fromData
        (lib.sws_scale d.convertContext r.frame r.ctx.height d.frameBytes)
        r.ctx.width r.ctx.height) ∧
      ∃ pre c p rest, fc.pending = pre ++ (c, p) :: rest ∧
        (frame lib d).detail.formatContext = some { fc with pending := rest } ∧
        (∀ x ∈ pre, x.1 ≥ 0) ∧ c ≥ 0 ∧ p.stream_index = d.vStreamIndex ∧
        (videoPackets d.vStreamIndex (pre.map Prod.snd)).length = k) := by
  obtain ⟨h1, h2⟩ := frameLoop_spec lib d.vStreamIndex d.convertContext fc.pending ctx
    d.frame d.frameBytes
  simp only [frame, hfc, hctx]
  refine ⟨by simpa using h1, ?_⟩
  intro k r hkr
  obtain ⟨himg, pre, c, p, hpre, hall, hc, hp, hlen⟩ := h2 k r hkr
  exact ⟨by rw [himg], pre, c, p, _, hpre, rfl, hall, hc, hp, hlen⟩

/-- The sample clip: the first call of `frame` skips an audio packet, feeds two
video packets to the decoder and returns the picture of the second. -/
theorem frame_decodes_next_picture_witness :
    (frame sampleLibrary (Bioscope sampleLibrary "/media/clip.avi").detail).image
        = Result.ok (QImage.fromData (List.replicate 24 3) 4 2) ∧
      ∃ pre c p rest, sampleContainer.pending = pre ++ (c, p) :: rest ∧
        (frame sampleLibrary (Bioscope sampleLibrary "/media/clip.avi").detail).detail.formatContext
          = some { sampleContainer with max_analyze_duration := 50000000, pending := rest } ∧
        (∀ x ∈ pre, x.1 ≥ 0) ∧ c ≥ 0 ∧ p.stream_index = 1 ∧
        (videoPackets 1 (pre.map Prod.snd)).length = 1 :=
  (frame_decodes_next_picture sampleLibrary (Bioscope sampleLibrary "/media/clip.avi").detail
    { sampleContainer with max_analyze_duration := 50000000 } sampleVideoCodec rfl rfl).2 1
    { ret := 1, got_picture := 1, ctx := { sampleVideoCodec with priv_data := 2 },
      frame := some { picture := 3 } } (by decide)

/-! ## Successful construction -/

theorem fixTimeBase_dims (ctx : AVCodecContext) :
    (fixTimeBase ctx).width = ctx.width ∧ (fixTimeBase ctx).height = ctx.height := by
  unfold fixTimeBase; split <;> simp

/-- What a completed construction leaves in `Detail`. -/
theorem Bioscope_ok (lib : Library) (_path : String)
    (h : (Bioscope lib _path).outcome = Result.ok ()) :
    ∃ s ctx, selectedStream (Bioscope lib _path).detail = some s ∧
      (Bioscope lib _path).detail.codecContext = some ctx ∧
      ctx.width = (Bioscope lib _path).detail.width ∧
      ctx.height = (Bioscope lib _path).detail.height ∧
      durationMillis lib s = some (Bioscope lib _path).detail.duration := by
  obtain ⟨c, o, _, hcases⟩ := Bioscope_cases lib _path
  rcases hcases with ⟨_, hB⟩ | ⟨_, _, hB⟩ |
    ⟨fc0, pc, fc, v, d, calls, _, _, _, _, hd, _, hrest⟩
  · rw [hB] at h; simp at h
  · rw [hB] at h; simp at h
  · rcases hrest with ⟨_, hB⟩ | ⟨_, _, hB⟩ | ⟨s, _, hs, hB⟩
    · rw [hB] at h; simp at h
    · rw [hB] at h; simp at h
    · rw [hB] at h ⊢
      obtain ⟨codec, _, _, hctx, hw, hh, hdur⟩ := openDecoder_ok _ _ _ _ _ _ h
      obtain ⟨hk1, hk2⟩ := openDecoder_kept lib (lib.canonicalFilePath _path) d s calls
        [Handle.container]
      refine ⟨s, _, ?_, hctx, ?_, ?_, hdur⟩
      · unfold selectedStream
        rw [hk1, hk2, hd]
        simpa using hs
      · rw [hw]; exact (fixTimeBase_dims _).1
      · rw [hh]; exact (fixTimeBase_dims _).2

/-! ## Dimensions of the returned images -/

theorem frameLoop_dims (lib : Library)
    (hkeep : ∀ ctx fr p, (lib.avcodec_decode_video2 ctx fr p).ctx.width = ctx.width ∧
      (lib.avcodec_decode_video2 ctx fr p).ctx.height = ctx.height)
    (v : Int) (conv : Option SwsContext) (pending : List (Int × AVPacket))
    (ctx : AVCodecContext) (fr : Option AVFrame) (bytes : List Nat) :
    (frameLoop lib v conv pending ctx fr bytes).codecContext.width = ctx.width ∧
    (frameLoop lib v conv pending ctx fr bytes).codecContext.height = ctx.height ∧
    ((frameLoop lib v conv pending ctx fr bytes).image ≠ QImage.null →
      (frameLoop lib v conv pending ctx fr bytes).image.width = ctx.width ∧
      (frameLoop lib v conv pending ctx fr bytes).image.height = ctx.height) := by
  induction pending generalizing ctx fr with
  | nil => simp [frameLoop]
  | cons x rest ih =>
    obtain ⟨c, p⟩ := x
    obtain ⟨hw, hh⟩ := hkeep ctx fr p
    by_cases h0 : c ≥ 0
    · by_cases hv : p.stream_index = v
      · by_cases hg : (lib.avcodec_decode_video2 ctx fr p).got_picture ≠ 0
        · rw [frameLoop, if_pos h0, if_pos hv, if_pos hg]
          simp [QImage.width, QImage.height, hw, hh]
        · rw [frameLoop, if_pos h0, if_pos hv, if_neg hg]
          have := ih (lib.avcodec_decode_video2 ctx fr p).ctx
            (lib.avcodec_decode_video2 ctx fr p).frame
          rw [hw, hh] at this
          exact this
      · rw [frameLoop, if_pos h0, if_neg hv]
        exact ih ctx fr
    · rw [frameLoop, if_neg h0]
      simp

theorem frame_dims (lib : Library)
    (hkeep : ∀ ctx fr p, (lib.avcodec_decode_video2 ctx fr p).ctx.width = ctx.width ∧
      (lib.avcodec_decode_video2 ctx fr p).ctx.height = ctx.height)
    (d : Detail) (hd : DimsCached d) :
    DimsCached (frame lib d).detail ∧ (frame lib d).detail.width = d.width ∧
    (frame lib d).detail.height = d.height ∧
    ∀ img, (frame lib d).image = Result.ok img → img ≠ QImage.null →
      img.width = d.width ∧ img.height = d.height := by
  obtain ⟨ctx, hctx, hw, hh⟩ := hd
  cases hfc : d.formatContext with
  | none =>
    simp only [frame, hfc, hctx]
    exact ⟨⟨ctx, hctx, hw, hh⟩, trivial, trivial, fun img himg => by simp at himg⟩
  | some fc =>
    obtain ⟨h1, h2, h3⟩ := frameLoop_dims lib hkeep d.vStreamIndex d.convertContext fc.pending
      ctx d.frame d.frameBytes
    simp only [frame, hfc, hctx]
    refine ⟨⟨_, rfl, by rw [h1, hw], by rw [h2, hh]⟩, trivial, trivial, ?_⟩
    intro img himg hne
    simp only [Result.ok.injEq] at himg
    subst himg
    rw [← hw, ← hh]
    exact h3 hne

theorem seek_dims (lib : Library) (d : Detail) (ms : Int) (hd : DimsCached d) :
    DimsCached (seek lib d ms).detail ∧ (seek lib d ms).detail.width = d.width ∧
    (seek lib d ms).detail.height = d.height := by
  simp only [seek]
  split
  · exact ⟨hd, rfl, rfl⟩
  · split
    · exact ⟨hd, rfl, rfl⟩
    · split
      · exact ⟨hd, rfl, rfl⟩
      · exact ⟨hd, rfl, rfl⟩

theorem run_dims (lib : Library)
    (hkeep : ∀ ctx fr p, (lib.avcodec_decode_video2 ctx fr p).ctx.width = ctx.width ∧
      (lib.avcodec_decode_video2 ctx fr p).ctx.height = ctx.height)
    (ops : List Op) (d : Detail) (hd : DimsCached d) :
    DimsCached (run lib d ops) ∧ (run lib d ops).width = d.width ∧
    (run lib d ops).height = d.height := by
  induction ops generalizing d with
  | nil => exact ⟨hd, rfl, rfl⟩
  | cons op ops ih =>
    cases op with
    | frame =>
      obtain ⟨h1, h2, h3, _⟩ := frame_dims lib hkeep d hd
      obtain ⟨i1, i2, i3⟩ := ih _ h1
      exact ⟨i1, i2.trans h2, i3.trans h3⟩
    | seek ms =>
      obtain ⟨h1, h2, h3⟩ := seek_dims lib d ms hd
      obtain ⟨i1, i2, i3⟩ := ih _ h1
      exact ⟨i1, i2.trans h2, i3.trans h3⟩

/-- As long as the decoder leaves the dimensions of its context unchanged,
every non-null image returned by `frame`, after any sequence of calls on a
constructed object, has the width and height the object reports. -/
theorem image_has_reported_dimensions (lib : Library) (path : String) (ops : List Op)
    (hok : (Bioscope lib path).outcome = Result.ok ())
    (hkeep : ∀ ctx fr p, (lib.avcodec_decode_video2 ctx fr p).ctx.width = ctx.width ∧
      (lib.avcodec_decode_video2 ctx fr p).ctx.height = ctx.height) :
    ∀ img, (frame lib (run lib (Bioscope lib path).detail ops)).image = Result.ok img →
      img ≠ QImage.null →
      img.width = width (run lib (Bioscope lib path).detail ops) ∧
      img.height = height (run lib (Bioscope lib path).detail ops) ∧
      width (run lib (Bioscope lib path).detail ops) = width (Bioscope lib path).detail ∧
      height (run lib (Bioscope lib path).detail ops) = height (Bioscope lib path).detail := by
  obtain ⟨s, ctx, _, hctx, hw, hh, _⟩ := Bioscope_ok lib path hok
  have h0 : DimsCached (Bioscope lib path).detail := ⟨ctx, hctx, hw, hh⟩
  obtain ⟨h1, h2, h3⟩ := run_dims lib hkeep ops _ h0
  intro img himg hne
  obtain ⟨hiw, hih⟩ := (frame_dims lib hkeep _ h1).2.2.2 img himg hne
  exact ⟨hiw, hih, h2, h3⟩

/-- The sample clip: after a seek, `frame` returns a 4 by 2 image, the
dimensions the object reports. -/
theorem image_has_reported_dimensions_witness :
    (frame sampleLibrary (run sampleLibrary (Bioscope sampleLibrary "/media/clip.avi").detail
        [Op.seek 1500])).image
      = Result.ok (QImage.fromData (List.replicate 24 3) 4 2) ∧
    (QImage.fromData (List.replicate 24 3) 4 2).width
      = width (run sampleLibrary (Bioscope sampleLibrary "/media/clip.avi").detail
        [Op.seek 1500]) ∧
    (QImage.fromData (List.replicate 24 3) 4 2).height
      = height (run sampleLibrary (Bioscope sampleLibrary "/media/clip.avi").detail
        [Op.seek 1500]) :=
  ⟨by decide,
   (image_has_reported_dimensions sampleLibrary "/media/clip.avi" [Op.seek 1500]
      (by decide) (fun _ _ _ => ⟨rfl, rfl⟩) _ (by decide) (by decide)).1,
   (image_has_reported_dimensions sampleLibrary "/media/clip.avi" [Op.seek 1500]
      (by decide) (fun _ _ _ => ⟨rfl, rfl⟩) _ (by decide) (by decide)).2.1⟩

/-- C8 (failing input). With a decoder that switches its context to 8 by 4 pixels
while decoding, the object still reports 4 by 2, its RGB buffer and scaler were
made for 4 by 2 (24 bytes), and `frame` returns an image declared 8 by 4 over
that 24-byte buffer, where 8 * 4 * 3 = 96 bytes are needed. -/
theorem image_dimensions_follow_decoder :
    (Bioscope resizingLibrary "/media/clip.avi").outcome = Result.ok () ∧
    width (Bioscope resizingLibrary "/media/clip.avi").detail = 4 ∧
    height (Bioscope resizingLibrary "/media/clip.avi").detail = 2 ∧
    (Bioscope resizingLibrary "/media/clip.avi").detail.frameBytes.length = 4 * 2 * 3 ∧
    (Bioscope resizingLibrary "/media/clip.avi").detail.convertContext
      = some { srcW := 4, srcH := 2, srcFormat := 0, dstW := 4, dstH := 2,
               dstFormat := PIX_FMT_RGB24, flags := SWS_BICUBIC } ∧
    (frame resizingLibrary (Bioscope resizingLibrary "/media/clip.avi").detail).image
      = Result.ok (QImage.fromData (List.replicate 24 2) 8 4) ∧
    (List.replicate 24 2).length < 8 * 4 * 3 := by
  decide

/-! ## Durations and timestamps -/

theorem tdiv_eq_tdiv_of_mul_eq {a b c d : Int} (hb : 0 < b) (hd : 0 < d)
    (h : a * d = c * b) : Int.tdiv a b = Int.tdiv c d := by
  have nonneg : ∀ {a c : Int}, 0 ≤ a → a * d = c * b → Int.tdiv a b = Int.tdiv c d := by
    intro a c ha h
    have hc : 0 ≤ c := by
      by_contra hneg
      push_neg at hneg
      have h1 : c * b < 0 := Int.mul_neg_of_neg_of_pos hneg hb
      have h2 : 0 ≤ a * d := Int.mul_nonneg ha (le_of_lt hd)
      omega
    rw [Int.tdiv_eq_ediv ha (le_of_lt hb), Int.tdiv_eq_ediv hc (le_of_lt hd)]
    calc a / b = (a * d) / (b * d) := (Int.mul_ediv_mul_of_pos_left a b hd).symm
      _ = (c * b) / (d * b) := by rw [h, Int.mul_comm b d]
      _ = c / d := Int.mul_ediv_mul_of_pos_left c d hb
  by_cases ha : 0 ≤ a
  · exact nonneg ha h
  · have h' : -a * d = -c * b := by rw [Int.neg_mul, Int.neg_mul, h]
    have := nonneg (a := -a) (c := -c) (by omega) h'
    rw [Int.neg_tdiv, Int.neg_tdiv] at this
    omega

theorem cdiv_of_pos (lo a b : Int) (hb : 0 < b) : cdiv lo a b = some (Int.tdiv a b) := by
  unfold cdiv
  rw [if_neg]
  omega

/-- C6 (amended). For a stream duration that fits an `int`, a time base `n/m`
with `m > 0`, and a library product that is exact (a fraction with positive
denominator equal to `duration * n / m`), the duration reported after a
successful construction is `1000 * duration * n / m` truncated toward zero. -/
theorem duration_in_milliseconds (lib : Library) (path : String) (s : AVStream)
    (hok : (Bioscope lib path).outcome = Result.ok ())
    (hs : selectedStream (Bioscope lib path).detail = some s)
    (hlo : -2147483648 ≤ s.duration) (hhi : s.duration < 2147483648)
    (hm : 0 < s.time_base.den)
    (hden : 0 < (lib.av_mul_q { num := s.duration, den := 1 } s.time_base).den)
    (hval : (lib.av_mul_q { num := s.duration, den := 1 } s.time_base).num * s.time_base.den
      = s.duration * s.time_base.num
        * (lib.av_mul_q { num := s.duration, den := 1 } s.time_base).den) :
    duration (Bioscope lib path).detail
      = Int.tdiv (1000 * s.duration * s.time_base.num) s.time_base.den := by
  obtain ⟨s', ctx, hs', _, _, _, hdur⟩ := Bioscope_ok lib path hok
  rw [hs] at hs'
  cases hs'
  have hd : toInt s.duration = s.duration := by unfold toInt; omega
  unfold durationMillis durationSeconds at hdur
  rw [hd, cdiv_of_pos _ _ _ hden] at hdur
  simp only [Option.some.injEq] at hdur
  unfold duration
  rw [← hdur]
  apply tdiv_eq_tdiv_of_mul_eq hden hm
  calc 1000 * (lib.av_mul_q { num := s.duration, den := 1 } s.time_base).num * s.time_base.den
      = 1000 * ((lib.av_mul_q { num := s.duration, den := 1 } s.time_base).num
          * s.time_base.den) := by ring
    _ = 1000 * s.duration * s.time_base.num
          * (lib.av_mul_q { num := s.duration, den := 1 } s.time_base).den := by
        rw [hval]; ring

/-- The sample clip: 900000 ticks at 90 kHz are reported as 10000 ms. -/
theorem duration_in_milliseconds_witness :
    duration (Bioscope sampleLibrary "/media/clip.avi").detail
      = Int.tdiv (1000 * 900000 * 1) 90000 :=
  duration_in_milliseconds sampleLibrary "/media/clip.avi"
    { codec := sampleVideoCodec, time_base := { num := 1, den := 90000 }, duration := 900000 }
    (by decide) (by decide) (by decide) (by decide) (by decide) (by decide) (by decide)

/-- C6 (counterexample). A stream of 2^32 + 900000 ticks at 90 kHz: only the low
32 bits of the duration reach the library, whatever the library is, and the
object reports 10000 ms where `1000 * d * n / m` is 47731858 ms. -/
theorem duration_narrowed_to_int :
    (∀ (lib : Library) (s : AVStream),
      durationSeconds lib { s with duration := s.duration + 4294967296 }
        = durationSeconds lib s) ∧
    (Bioscope longLibrary "/media/long.ts").outcome = Result.ok () ∧
    selectedStream (Bioscope longLibrary "/media/long.ts").detail
      = some { codec := sampleVideoCodec, time_base := { num := 1, den := 90000 },
               duration := 4295867296 } ∧
    duration (Bioscope longLibrary "/media/long.ts").detail = 10000 ∧
    Int.tdiv (1000 * 4295867296 * 1) 90000 = 47731858 := by
  refine ⟨?_, by decide, by decide, by decide, by decide⟩
  intro lib s
  have h : toInt (s.duration + 4294967296) = toInt s.duration := by unfold toInt; omega
  simp only [durationSeconds, h]

/-- C7 (amended). For `ms` that fits an `int`, a time base `n/m` with `n > 0` and
`m > 0`, and a library quotient that is exact (a fraction with positive
denominator equal to `(ms/1000) / (n/m)`), `seek` asks the library to seek the
selected stream to `ms * m / (1000 * n)` truncated toward zero, with flags 0. -/
theorem seek_timestamp (lib : Library) (d : Detail) (fc : AVFormatContext) (s : AVStream)
    (ms : Int) (hfc : d.formatContext = some fc) (hs : streamAt fc d.vStreamIndex = some s)
    (hlo : -2147483648 ≤ ms) (hhi : ms < 2147483648)
    (hn : 0 < s.time_base.num)
    (hden : 0 < (lib.av_div_q { num := ms, den := 1000 } s.time_base).den)
    (hval : (lib.av_div_q { num := ms, den := 1000 } s.time_base).num * (1000 * s.time_base.num)
      = ms * s.time_base.den * (lib.av_div_q { num := ms, den := 1000 } s.time_base).den) :
    (seek lib d ms).outcome = Result.ok () ∧
    (seek lib d ms).request
      = some (d.vStreamIndex, Int.tdiv (ms * s.time_base.den) (1000 * s.time_base.num), 0) := by
  have hd : toInt ms = ms := by unfold toInt; omega
  have hq : cdiv INT_MIN (seekTimestamp lib ms s.time_base).num
      (seekTimestamp lib ms s.time_base).den
      = some (Int.tdiv (ms * s.time_base.den) (1000 * s.time_base.num)) := by
    unfold seekTimestamp
    rw [hd, cdiv_of_pos _ _ _ hden]
    exact congrArg some (tdiv_eq_tdiv_of_mul_eq hden (by omega) hval)
  simp only [seek, hfc, hs, hq]
  exact ⟨trivial, trivial⟩

/-- The sample clip: seeking to 1500 ms requests timestamp 135000 of stream 1. -/
theorem seek_timestamp_witness :
    (seek sampleLibrary (Bioscope sampleLibrary "/media/clip.avi").detail 1500).outcome
      = Result.ok () ∧
    (seek sampleLibrary (Bioscope sampleLibrary "/media/clip.avi").detail 1500).request
      = some (1, Int.tdiv (1500 * 90000) (1000 * 1), 0) :=
  seek_timestamp sampleLibrary (Bioscope sampleLibrary "/media/clip.avi").detail
    { sampleContainer with max_analyze_duration := 50000000 }
    { codec := sampleVideoCodec, time_base := { num := 1, den := 90000 }, duration := 900000 }
    1500 (by decide) (by decide) (by decide) (by decide) (by decide) (by decide) (by decide)

/-- A quotient above `INT_MAX` is clamped by the reference arithmetic. -/
theorem Reference.av_div_q_saturates :
    Reference.av_div_q { num := 30000000, den := 1000 } { num := 1, den := 90000 }
      = { num := 2147483647, den := 1 } := by
  simp [Reference.av_div_q, Reference.av_mul_q, Reference.av_reduce]
  rw [Reference.reduceLoop]
  simp [Reference.clampQuotient]

theorem seek_far_request :
    (seek sampleLibrary (Bioscope sampleLibrary "/media/clip.avi").detail 30000000).request
      = some (1, 2147483647, 0) := by
  have hfc : (Bioscope sampleLibrary "/media/clip.avi").detail.formatContext
      = some { sampleContainer with max_analyze_duration := 50000000 } := by decide
  have hv : (Bioscope sampleLibrary "/media/clip.avi").detail.vStreamIndex = 1 := by decide
  have hs : streamAt { sampleContainer with max_analyze_duration := 50000000 } 1
      = some { codec := sampleVideoCodec, time_base := { num := 1, den := 90000 },
               duration := 900000 } := by decide
  have hts : seekTimestamp sampleLibrary 30000000 { num := 1, den := 90000 }
      = { num := 2147483647, den := 1 } := by
    have h : toInt 30000000 = 30000000 := by decide
    show Reference.av_div_q { num := toInt 30000000, den := 1000 } _ = _
    rw [h]
    exact Reference.av_div_q_saturates
  have hq : cdiv INT_MIN 2147483647 1 = some 2147483647 := by decide
  simp only [seek, hfc, hv, hs, hts, hq]

/-- C7 (counterexample). Only the low 32 bits of `ms` reach the library,
whatever the library is: seeking the sample clip to 2^32 + 1500 ms requests
timestamp 135000, the one of 1500 ms, where `ms * m / (1000 * n)` is
386547191640.  And with the reference rational arithmetic a quotient above
`INT_MAX` is clamped: seeking to 30000000 ms requests timestamp 2147483647 where
`ms * m / (1000 * n)` is 2700000000. -/
theorem seek_narrowed_to_int :
    (∀ (lib : Library) (ms : Int) (tb : AVRational),
      seekTimestamp lib (ms + 4294967296) tb = seekTimestamp lib ms tb) ∧
    (seek sampleLibrary (Bioscope sampleLibrary "/media/clip.avi").detail 4294968796).request
      = some (1, 135000, 0) ∧
    Int.tdiv (4294968796 * 90000) (1000 * 1) = 386547191640 ∧
    (seek sampleLibrary (Bioscope sampleLibrary "/media/clip.avi").detail 30000000).request
      = some (1, 2147483647, 0) ∧
    Int.tdiv (30000000 * 90000) (1000 * 1) = 2700000000 := by
  refine ⟨?_, by decide, by decide, seek_far_request, by decide⟩
  intro lib ms tb
  have h : toInt (ms + 4294967296) = toInt ms := by unfold toInt; omega
  simp only [seekTimestamp, h]

/-! ## Divisors -/

theorem Reference.reduceLoop_den_pos (max : Nat) :
    ∀ (den num : Nat) (a0 a1 : Nat × Nat), 1 ≤ a1.2 → (1 ≤ a0.2 ∨ den ≤ num) →
      1 ≤ (Reference.reduceLoop max den num a0 a1).2 := by
  intro den
  induction den using Nat.strong_induction_on with
  | _ den ih =>
    intro num a0 a1 h1 h0
    rw [Reference.reduceLoop]
    by_cases hden : den = 0
    · rw [if_pos hden]; exact h1
    · have hpos : 0 < den := Nat.pos_of_ne_zero hden
      have ha2d : 1 ≤ num / den * a1.2 + a0.2 := by
        rcases h0 with h0 | h0
        · omega
        · have : 1 ≤ num / den := Nat.div_pos h0 hpos
          have : 1 ≤ num / den * a1.2 := Nat.mul_pos this h1
          omega
      rw [if_neg hden]
      by_cases hbreak : num / den * a1.1 + a0.1 > max ∨ num / den * a1.2 + a0.2 > max
      · rw [if_pos hbreak]
        generalize Reference.clampQuotient max (num / den) a0 a1 = x
        by_cases htest : den * (2 * x * a1.2 + a0.2) > num * a1.2
        · rw [if_pos htest]
          show 1 ≤ x * a1.2 + a0.2
          by_contra hzero
          have hz : x * a1.2 + a0.2 = 0 := by omega
          have hz1 := Nat.eq_zero_of_add_eq_zero_right hz
          have hz2 := Nat.eq_zero_of_add_eq_zero_left hz
          rw [Nat.mul_assoc, hz1, hz2] at htest
          simp at htest
        · rw [if_neg htest]; exact h1
      · rw [if_neg hbreak]
        exact ih (num % den) (Nat.mod_lt _ hpos) den a1 _ ha2d (Or.inl h1)

theorem Reference.reduceLoop_start_den_pos (max den num : Nat) (hden : 0 < den) :
    1 ≤ (Reference.reduceLoop max den num (0, 1) (1, 0)).2 := by
  rw [Reference.reduceLoop]
  have hne : den ≠ 0 := by omega
  rw [if_neg hne]
  by_cases hbreak : num / den * (1, 0).1 + (0, 1).1 > max ∨ num / den * (1, 0).2 + (0, 1).2 > max
  · rw [if_pos hbreak]
    generalize Reference.clampQuotient max (num / den) (0, 1) (1, 0) = x
    have htest : den * (2 * x * (1, 0).2 + (0, 1).2) > num * (1, 0).2 := by simpa using hden
    rw [if_pos htest]
    simp
  · rw [if_neg hbreak]
    exact Reference.reduceLoop_den_pos max _ _ _ _ (by simp)
      (Or.inr (le_of_lt (Nat.mod_lt _ hden)))

theorem Reference.av_reduce_den_pos (num den : Int) (max : Nat) (hden : den ≠ 0) :
    0 < (Reference.av_reduce num den max).den := by
  have habs : 0 < den.natAbs := Int.natAbs_pos.mpr hden
  have hgcd : 0 < Nat.gcd num.natAbs den.natAbs := Nat.gcd_pos_of_pos_right _ habs
  have hd : 0 < den.natAbs / Nat.gcd num.natAbs den.natAbs :=
    Nat.div_pos (Nat.le_of_dvd habs (Nat.gcd_dvd_right _ _)) hgcd
  have hg : Nat.gcd num.natAbs den.natAbs ≠ 0 := by omega
  simp only [Reference.av_reduce, hg, ne_eq, not_false_eq_true, if_true]
  split
  · exact_mod_cast hd
  · exact_mod_cast Reference.reduceLoop_start_den_pos max _ _ hd

theorem Reference.av_mul_q_den_pos (b c : AVRational) (hb : 0 < b.den) (hc : 0 < c.den) :
    0 < (Reference.av_mul_q b c).den :=
  Reference.av_reduce_den_pos _ _ _ (ne_of_gt (Int.mul_pos hb hc))

theorem Reference.av_div_q_den_pos (b c : AVRational) (hb : 0 < b.den) (hc : 0 < c.num) :
    0 < (Reference.av_div_q b c).den :=
  Reference.av_reduce_den_pos _ _ _ (ne_of_gt (Int.mul_pos hb hc))

/-- A library whose product and quotient of fractions with positive terms have
a positive denominator never makes the wrapper divide by zero. -/
theorem divisors_nonzero_of_positive_denominators (lib : Library)
    (hmul : ∀ b c : AVRational, 0 < b.den → 0 < c.den → 0 < (lib.av_mul_q b c).den)
    (hdiv : ∀ b c : AVRational, 0 < b.den → 0 < c.num → 0 < (lib.av_div_q b c).den)
    (s : AVStream) (ms : Int) (hn : 0 < s.time_base.num) (hm : 0 < s.time_base.den) :
    0 < (durationSeconds lib s).den ∧ 0 < (seekTimestamp lib ms s.time_base).den :=
  ⟨hmul { num := toInt s.duration, den := 1 } s.time_base (by show (0 : Int) < 1; decide) hm,
   hdiv { num := toInt ms, den := 1000 } s.time_base (by show (0 : Int) < 1000; decide) hn⟩

/-- C9. With the rational arithmetic of the decoding library, for a time base
`n/m` with `n > 0` and `m > 0`, every stream duration and every `ms`, neither
division of the wrapper has a zero divisor: the duration computed by the
constructor and the timestamp computed by `seek` are defined, and `seek` on an
object whose selected stream has that time base returns normally. -/
theorem divisors_nonzero (lib : Library) (s : AVStream) (ms : Int)
    (hn : 0 < s.time_base.num) (hm : 0 < s.time_base.den) :
    (durationSeconds (withReferenceRationals lib) s).den ≠ 0 ∧
    (seekTimestamp (withReferenceRationals lib) ms s.time_base).den ≠ 0 ∧
    durationMillis (withReferenceRationals lib) s
      = some (Int.tdiv (1000 * (durationSeconds (withReferenceRationals lib) s).num)
          (durationSeconds (withReferenceRationals lib) s).den) ∧
    cdiv INT_MIN (seekTimestamp (withReferenceRationals lib) ms s.time_base).num
        (seekTimestamp (withReferenceRationals lib) ms s.time_base).den
      = some (Int.tdiv (seekTimestamp (withReferenceRationals lib) ms s.time_base).num
          (seekTimestamp (withReferenceRationals lib) ms s.time_base).den) ∧
    (∀ (d : Detail) (fc : AVFormatContext), d.formatContext = some fc →
      streamAt fc d.vStreamIndex = some s →
      (seek (withReferenceRationals lib) d ms).outcome = Result.ok ()) := by
  obtain ⟨h1, h2⟩ := divisors_nonzero_of_positive_denominators (withReferenceRationals lib)
    (fun b c hb hc => Reference.av_mul_q_den_pos b c hb hc)
    (fun b c hb hc => Reference.av_div_q_den_pos b c hb hc) s ms hn hm
  refine ⟨ne_of_gt h1, ne_of_gt h2, cdiv_of_pos _ _ _ h1, cdiv_of_pos _ _ _ h2, ?_⟩
  intro d fc hfc hs
  simp only [seek, hfc, hs, cdiv_of_pos _ _ _ h2]

/-- The sample clip: its library uses the reference arithmetic; the divisors
are non-zero for its video stream, also when seeking to a negative `ms` and to
`ms = 0`. -/
theorem divisors_nonzero_witness :
    (durationSeconds (withReferenceRationals sampleLibrary) sampleVideoStream).den ≠ 0 ∧
    (seekTimestamp (withReferenceRationals sampleLibrary) (-1500)
      sampleVideoStream.time_base).den ≠ 0 ∧
    (seekTimestamp (withReferenceRationals sampleLibrary) 0
      sampleVideoStream.time_base).den ≠ 0 ∧
    (seek (withReferenceRationals sampleLibrary)
      (Bioscope (withReferenceRationals sampleLibrary) "/media/clip.avi").detail
      (-1500)).outcome = Result.ok () :=
  ⟨(divisors_nonzero sampleLibrary sampleVideoStream (-1500) (by decide) (by decide)).1,
   (divisors_nonzero sampleLibrary sampleVideoStream (-1500) (by decide) (by decide)).2.1,
   (divisors_nonzero sampleLibrary sampleVideoStream 0 (by decide) (by decide)).2.1,
   (divisors_nonzero sampleLibrary sampleVideoStream (-1500) (by decide)
      (by decide)).2.2.2.2 _ { sampleContainer with max_analyze_duration := 50000000 }
      (by decide) (by decide)⟩

end Bioscope
